import Mathlib

/-!
Shallow embedding of the tile path-finder and maze key-finder core of this
repository: the tile pattern catalog (`src/data/tilePatterns.ts`), the
path-finder service (`src/services/pathFinderService.ts`) and the key-finder
maze service (`src/services/adaptiveDifficultyService.ts`).

JavaScript `Math.random()` draws are modelled by an explicit stream
`rand : Nat → Nat`; the JS idiom `Math.floor(Math.random() * n)` becomes
`rand k % n` for the next unused stream index `k`, which ranges over exactly
the values `0 .. n-1` the JS expression can produce.  Array indexing is
modelled with `List.getD` (out-of-range reads yield a default, mirroring the
fact that in-range reads — the only ones the algorithms perform on
well-formed grids — agree with the JS arrays).

Unbounded `while` loops are modelled with an explicit fuel argument chosen
large enough that the fuel-exhausted branch is unreachable; this is proved,
not assumed, where a claim depends on it.
-/

/-- One of the four edges of a tile (the `top/bottom/left/right` keys of a
`ConnectionPoints` object). -/
inductive Side
  | top
  | bottom
  | left
  | right
deriving DecidableEq, Repr

/-- The four movement directions of both games (`'up' | 'down' | 'left' | 'right'`). -/
inductive Dir
  | up
  | down
  | left
  | right
deriving DecidableEq, Repr

/-- `ConnectionPoints` from `src/types/pathfinder.ts`: which of the four tile
edges carry an exit. -/
structure ConnectionPoints where
  left : Bool
  right : Bool
  top : Bool
  bottom : Bool
deriving DecidableEq, Repr

/-- The `pattern_type` field of a tile pattern. -/
inductive PatternType
  | straight
  | corner
  | t_junction
  | cross
deriving DecidableEq, Repr

/-- `TilePattern` catalog entry (`src/data/tilePatterns.ts`); the `created_at`
timestamp is omitted as it is never read by any algorithm. -/
structure TilePattern where
  id : String
  pattern_name : String
  pattern_type : PatternType
  arrow_directions : List Dir
  connection_points : ConnectionPoints
  difficulty_level : Nat
  is_active : Bool
deriving DecidableEq, Repr

/-- An integer `{row, col}` pair. -/
structure Coord where
  row : Nat
  col : Nat
deriving DecidableEq, Repr

/-- `GridTile` from `src/types/pathfinder.ts`. -/
structure GridTile where
  row : Nat
  col : Nat
  pattern : TilePattern
  rotation : Nat
  isStart : Bool
  isEnd : Bool
  isSelected : Bool
  isInPath : Bool
deriving DecidableEq, Repr

/-- `GridConfig` from `src/types/pathfinder.ts`. -/
structure GridConfig where
  tiles : List (List GridTile)
  gridSize : Nat
  startPosition : Coord
  endPosition : Coord
  optimalMoves : Nat
deriving DecidableEq, Repr

/-- `PathValidationResult` from `src/types/pathfinder.ts`. -/
structure PathValidationResult where
  isValid : Bool
  pathTiles : List Coord
  message : String
deriving DecidableEq, Repr

/-- `ScoreCalculation` from `src/types/pathfinder.ts`.  Quantities that stay
natural in the code are `Nat`; `finalScore` is `Int` because the expression
`baseScore + timeBonus - movePenalty` can be negative before the `max`, and
`efficiency` is `ℚ` because it is a true ratio. -/
structure ScoreCalculation where
  baseScore : Nat
  timeBonus : Nat
  movePenalty : Nat
  finalScore : Int
  efficiency : ℚ
deriving DecidableEq, Repr

/-- The `TILE_PATTERNS` catalog of `src/data/tilePatterns.ts`: 11 entries,
2 straights, 4 corners, 4 T-junctions, 1 cross. -/
def TILE_PATTERNS : List TilePattern :=
  [ { id := "straight_horizontal", pattern_name := "Straight Horizontal",
      pattern_type := .straight, arrow_directions := [.right, .left],
      connection_points := { left := true, right := true, top := false, bottom := false },
      difficulty_level := 1, is_active := true },
    { id := "straight_vertical", pattern_name := "Straight Vertical",
      pattern_type := .straight, arrow_directions := [.down, .up],
      connection_points := { left := false, right := false, top := true, bottom := true },
      difficulty_level := 1, is_active := true },
    { id := "corner_top_right", pattern_name := "Corner Top Right",
      pattern_type := .corner, arrow_directions := [.up, .right],
      connection_points := { left := false, right := true, top := true, bottom := false },
      difficulty_level := 1, is_active := true },
    { id := "corner_top_left", pattern_name := "Corner Top Left",
      pattern_type := .corner, arrow_directions := [.up, .left],
      connection_points := { left := true, right := false, top := true, bottom := false },
      difficulty_level := 1, is_active := true },
    { id := "corner_bottom_right", pattern_name := "Corner Bottom Right",
      pattern_type := .corner, arrow_directions := [.down, .right],
      connection_points := { left := false, right := true, top := false, bottom := true },
      difficulty_level := 1, is_active := true },
    { id := "corner_bottom_left", pattern_name := "Corner Bottom Left",
      pattern_type := .corner, arrow_directions := [.down, .left],
      connection_points := { left := true, right := false, top := false, bottom := true },
      difficulty_level := 1, is_active := true },
    { id := "t_junction_top", pattern_name := "T-Junction Top",
      pattern_type := .t_junction, arrow_directions := [.left, .right, .down],
      connection_points := { left := true, right := true, top := false, bottom := true },
      difficulty_level := 2, is_active := true },
    { id := "t_junction_bottom", pattern_name := "T-Junction Bottom",
      pattern_type := .t_junction, arrow_directions := [.left, .right, .up],
      connection_points := { left := true, right := true, top := true, bottom := false },
      difficulty_level := 2, is_active := true },
    { id := "t_junction_left", pattern_name := "T-Junction Left",
      pattern_type := .t_junction, arrow_directions := [.up, .down, .right],
      connection_points := { left := false, right := true, top := true, bottom := true },
      difficulty_level := 2, is_active := true },
    { id := "t_junction_right", pattern_name := "T-Junction Right",
      pattern_type := .t_junction, arrow_directions := [.up, .down, .left],
      connection_points := { left := true, right := false, top := true, bottom := true },
      difficulty_level := 2, is_active := true },
    { id := "cross", pattern_name := "Cross",
      pattern_type := .cross, arrow_directions := [.up, .down, .left, .right],
      connection_points := { left := true, right := true, top := true, bottom := true },
      difficulty_level := 3, is_active := true } ]

/-- `getTilePatternsByDifficulty`: active patterns with difficulty at most the bound. -/
def getTilePatternsByDifficulty (maxDifficulty : Nat) : List TilePattern :=
  TILE_PATTERNS.filter (fun pattern => decide (pattern.difficulty_level ≤ maxDifficulty) && pattern.is_active)

/-- Fallback pattern value for out-of-range indexing (never reached for the
difficulty bounds the generator uses, where the filtered list is non-empty). -/
def defaultPattern : TilePattern :=
  { id := "straight_horizontal", pattern_name := "Straight Horizontal",
    pattern_type := .straight, arrow_directions := [.right, .left],
    connection_points := { left := true, right := true, top := false, bottom := false },
    difficulty_level := 1, is_active := true }

/-- `getRandomTilePattern`: uniform draw from the difficulty-filtered subset;
`r` is the raw random draw. -/
def getRandomTilePattern (maxDifficulty : Nat) (r : Nat) : TilePattern :=
  let availablePatterns := getTilePatternsByDifficulty maxDifficulty
  availablePatterns.getD (r % availablePatterns.length) defaultPattern

/-- One clockwise quarter-turn of a connection set: the body of the `for` loop
in `rotateConnectionPoints` (`left := bottom, right := top, top := left,
bottom := right`). -/
def rotStep (c : ConnectionPoints) : ConnectionPoints :=
  { left := c.bottom, right := c.top, top := c.left, bottom := c.right }

/-- Apply `rotStep` `n` times in sequence. -/
def rotIter : Nat → ConnectionPoints → ConnectionPoints
  | 0, c => c
  | n + 1, c => rotIter n (rotStep c)

/-- `rotateConnectionPoints` (`pathFinderService.ts:61-77`): early-return on
rotation 0, else iterate the quarter-turn `rotation / 90` times. -/
def rotateConnectionPoints (connections : ConnectionPoints) (rotation : Nat) : ConnectionPoints :=
  if rotation = 0 then connections
  else rotIter (rotation / 90) connections

/-- Read one edge of a connection set (the `rotatedConnections[direction]` lookup). -/
def sideGet (c : ConnectionPoints) : Side → Bool
  | .top => c.top
  | .bottom => c.bottom
  | .left => c.left
  | .right => c.right

/-- `rotateTile` (`pathFinderService.ts:152-158`): advance rotation by 90° mod 360. -/
def rotateTile (tile : GridTile) : GridTile :=
  { tile with rotation := (tile.rotation + 90) % 360 }

/-- `flipTile`, shape-dependent version (`pathFinderService.ts:522-534` and the
copy at `src/unnamed/part_001:89-96`): straight tiles toggle between the two
members of their axis family, corners swap 90↔270, T-junctions and crosses
rotate by 180°. -/
def flipTile (tile : GridTile) : GridTile :=
  let t := tile.pattern.pattern_type
  let rot := tile.rotation
  let rot2 :=
    if t = PatternType.straight then
      if rot % 180 = 0 then (rot + 90) % 360 else (rot + 270) % 360
    else if t = PatternType.corner then
      if rot = 90 then 270 else if rot = 270 then 90 else rot
    else (rot + 180) % 360
  { tile with rotation := rot2 }

/-- `flipTile`, plain version (`pathFinderService.ts:160-166`, the first of the
repository's service copies): a flat 180° rotation for every shape. -/
def flipTileBasic (tile : GridTile) : GridTile :=
  { tile with rotation := (tile.rotation + 180) % 360 }

/-- `calculateScore` of the path finder (`pathFinderService.ts:536-557`, with
the `totalMoves > 0` guard on efficiency). -/
def calculateScore (completionTimeSeconds timeLimitSeconds totalMoves optimalMoves : Nat) :
    ScoreCalculation :=
  let baseScore : Nat := 100
  let timeBonus : Nat :=
    if completionTimeSeconds < 60 then 50
    else if completionTimeSeconds < timeLimitSeconds then
      25 * (timeLimitSeconds - completionTimeSeconds) / timeLimitSeconds
    else 0
  let movePenalty : Nat :=
    if totalMoves > optimalMoves then (totalMoves - optimalMoves) * 10 else 0
  let finalScore : Int := max ((baseScore : Int) + timeBonus - movePenalty) 10
  let efficiency : ℚ :=
    if totalMoves > 0 then (optimalMoves : ℚ) / (totalMoves : ℚ) * 100 else 100
  { baseScore := baseScore, timeBonus := timeBonus, movePenalty := movePenalty,
    finalScore := finalScore, efficiency := efficiency }

/-- The reference score definition spelled out in the specification (§4.6):
`timeBonus` in two tiers, `movePenalty = max(0, totalMoves − optimalMoves) × 10`,
`finalScore = max(baseScore + timeBonus − movePenalty, 10)`, and efficiency
guarded at zero moves. -/
def calculateScoreSpec (completionTimeSeconds timeLimitSeconds totalMoves optimalMoves : Nat) :
    ScoreCalculation :=
  let baseScore : Nat := 100
  let timeBonus : Nat :=
    if completionTimeSeconds < 60 then 50
    else if completionTimeSeconds < timeLimitSeconds then
      25 * (timeLimitSeconds - completionTimeSeconds) / timeLimitSeconds
    else 0
  let movePenalty : Nat := (max 0 ((totalMoves : Int) - (optimalMoves : Int))).toNat * 10
  let finalScore : Int := max ((baseScore : Int) + timeBonus - movePenalty) 10
  let efficiency : ℚ :=
    if totalMoves > 0 then (optimalMoves : ℚ) / (totalMoves : ℚ) * 100 else 100
  { baseScore := baseScore, timeBonus := timeBonus, movePenalty := movePenalty,
    finalScore := finalScore, efficiency := efficiency }

/-- A maze cell tag (`CellType` from `src/types/keyFinder.ts`). -/
inductive CellType
  | empty
  | wall
  | start
  | key
  | exit
deriving DecidableEq, Repr

/-- `MazeGrid` from `src/types/keyFinder.ts`. -/
structure MazeGrid where
  cells : List (List CellType)
  gridSize : Nat
  startPosition : Coord
  keyPosition : Coord
  exitPosition : Coord
  optimalPathLength : Nat
deriving DecidableEq, Repr

/-- Result record of `canMove`. -/
structure CanMoveResult where
  canMove : Bool
  newPosition : Option Coord
  hitWall : Bool
deriving DecidableEq, Repr

/-- Read a maze cell (`cells[row][col]`); out-of-range reads default to
`empty`, mirroring the fact that the algorithms bounds-check before reading. -/
def cellGet (cells : List (List CellType)) (p : Coord) : CellType :=
  (cells.getD p.row []).getD p.col CellType.empty

/-- Write a maze cell (`cells[row][col] = c`). -/
def cellSet (cells : List (List CellType)) (p : Coord) (c : CellType) : List (List CellType) :=
  cells.set p.row ((cells.getD p.row []).set p.col c)

/-- Read a visited flag (`visited[row][col]`), defaulting to `false`. -/
def visGet (v : List (List Bool)) (p : Coord) : Bool :=
  (v.getD p.row []).getD p.col false

/-- Mark a cell visited (`visited[row][col] = true`). -/
def visSet (v : List (List Bool)) (p : Coord) : List (List Bool) :=
  v.set p.row ((v.getD p.row []).set p.col true)

/-- A fresh all-`false` visited grid (`Array(n).fill(null).map(() => Array(n).fill(false))`). -/
def mkFalseGrid (n : Nat) : List (List Bool) :=
  List.replicate n (List.replicate n false)

/-- A fresh all-`empty` cell grid. -/
def mkEmptyGrid (n : Nat) : List (List CellType) :=
  List.replicate n (List.replicate n CellType.empty)

/-- `canMove` (`adaptiveDifficultyService.ts:817-851`): apply a unit offset,
reject out-of-bounds targets and wall cells.  Offsets are computed in `ℤ`
because moving up/left from row/column 0 produces the (rejected) target −1. -/
def canMove (currentPos : Coord) (direction : Dir) (maze : MazeGrid) : CanMoveResult :=
  let newRow : Int :=
    match direction with
    | .up => (currentPos.row : Int) - 1
    | .down => (currentPos.row : Int) + 1
    | _ => currentPos.row
  let newCol : Int :=
    match direction with
    | .left => (currentPos.col : Int) - 1
    | .right => (currentPos.col : Int) + 1
    | _ => currentPos.col
  if newRow < 0 ∨ newRow ≥ (maze.gridSize : Int) ∨ newCol < 0 ∨ newCol ≥ (maze.gridSize : Int) then
    { canMove := false, newPosition := none, hitWall := true }
  else
    let cellType := cellGet maze.cells ⟨newRow.toNat, newCol.toNat⟩
    if cellType = CellType.wall then
      { canMove := false, newPosition := none, hitWall := true }
    else
      { canMove := true, newPosition := some ⟨newRow.toNat, newCol.toNat⟩, hitWall := false }

/-- `getNeighbors` (`adaptiveDifficultyService.ts:786-795`): the axis
neighbors that stay inside the grid, in the source's up/down/left/right order. -/
def getNeighbors (pos : Coord) (gridSize : Nat) : List Coord :=
  (if pos.row > 0 then [⟨pos.row - 1, pos.col⟩] else []) ++
  (if pos.row < gridSize - 1 then [⟨pos.row + 1, pos.col⟩] else []) ++
  (if pos.col > 0 then [⟨pos.row, pos.col - 1⟩] else []) ++
  (if pos.col < gridSize - 1 then [⟨pos.row, pos.col + 1⟩] else [])

/-- A BFS queue entry: a position together with the path that reached it. -/
structure PathEntry where
  pos : Coord
  path : List Coord
deriving DecidableEq, Repr

/-- Cell types the maze BFS may walk through (`empty`, `key`, `exit`, `start`). -/
def isTraversable (c : CellType) : Bool :=
  c = CellType.empty || c = CellType.key || c = CellType.exit || c = CellType.start

/-- The `while (queue.length > 0)` loop of `findPath`
(`adaptiveDifficultyService.ts:741-784`), with fuel.  `findPath` supplies fuel
`gridSize² + 1`, which exceeds the loop's iteration count (each iteration
dequeues one entry and every enqueue marks a distinct cell visited). -/
def findPathLoop (cells : List (List CellType)) (gridSize : Nat) (endPos : Coord) :
    Nat → List (List Bool) → List PathEntry → List Coord
  | _, _, [] => []
  | 0, _, _ :: _ => []
  | fuel + 1, visited, e :: rest =>
    if e.pos = endPos then e.path
    else
      let acc :=
        (getNeighbors e.pos gridSize).foldl
          (fun (acc : List (List Bool) × List PathEntry) neighbor =>
            if !visGet acc.1 neighbor && isTraversable (cellGet cells neighbor) then
              (visSet acc.1 neighbor, acc.2 ++ [⟨neighbor, e.path ++ [neighbor]⟩])
            else acc)
          (visited, rest)
      findPathLoop cells gridSize endPos fuel acc.1 acc.2

/-- `findPath` (`adaptiveDifficultyService.ts:741-784`): BFS from `start` to
`finish` over traversable cells; returns the found path or `[]`. -/
def findPath (cells : List (List CellType)) (gridSize : Nat) (start finish : Coord) : List Coord :=
  findPathLoop cells gridSize finish (gridSize * gridSize + 1)
    (visSet (mkFalseGrid gridSize) start) [⟨start, [start]⟩]

/-- `isValidMaze` (`adaptiveDifficultyService.ts:797-815`): both the
start→key and the key→exit BFS paths must be non-empty. -/
def isValidMaze (maze : MazeGrid) : Bool :=
  let pathToKey := findPath maze.cells maze.gridSize maze.startPosition maze.keyPosition
  if pathToKey.length = 0 then false
  else
    let pathToExit := findPath maze.cells maze.gridSize maze.keyPosition maze.exitPosition
    decide (pathToExit.length > 0)

/-- The wall-placement loop of `createMazeAttempt`
(`adaptiveDifficultyService.ts:653-659`): `i` iterations remain, `k` is the
next random-stream index; each iteration draws a row and a column and marks
the cell as wall only if it is still empty (collisions are skipped). -/
def placeWalls (gridSize : Nat) (rand : Nat → Nat) :
    Nat → Nat → List (List CellType) → List (List CellType) × Nat
  | 0, k, cells => (cells, k)
  | i + 1, k, cells =>
    let row := rand k % gridSize
    let col := rand (k + 1) % gridSize
    let cells2 :=
      if cellGet cells ⟨row, col⟩ = CellType.empty then cellSet cells ⟨row, col⟩ CellType.wall
      else cells
    placeWalls gridSize rand i (k + 2) cells2

/-- The random-sampling loop of `findRandomEmptyPosition`
(`adaptiveDifficultyService.ts:716-727`), at most 100 attempts; returns the
found position (if any) and the next unused stream index. -/
def findRandomEmptyLoop (cells : List (List CellType)) (gridSize : Nat) (exclude : List Coord)
    (rand : Nat → Nat) : Nat → Nat → Option Coord × Nat
  | 0, k => (none, k)
  | fuel + 1, k =>
    let row := rand k % gridSize
    let col := rand (k + 1) % gridSize
    let p : Coord := ⟨row, col⟩
    if cellGet cells p = CellType.empty && !exclude.contains p then (some p, k + 2)
    else findRandomEmptyLoop cells gridSize exclude rand fuel (k + 2)

/-- The row-major fallback scan of `findRandomEmptyPosition`
(`adaptiveDifficultyService.ts:729-738`), with ultimate fallback `(0,0)`. -/
def scanEmpty (cells : List (List CellType)) (gridSize : Nat) (exclude : List Coord) : Coord :=
  (((List.range gridSize).flatMap fun row =>
      (List.range gridSize).map fun col => Coord.mk row col).find? fun p =>
        cellGet cells p = CellType.empty && !exclude.contains p).getD ⟨0, 0⟩

/-- `findRandomEmptyPosition` (`adaptiveDifficultyService.ts:708-739`). -/
def findRandomEmptyPosition (cells : List (List CellType)) (gridSize : Nat)
    (exclude : List Coord) (rand : Nat → Nat) (k : Nat) : Coord × Nat :=
  match findRandomEmptyLoop cells gridSize exclude rand 100 k with
  | (some p, k2) => (p, k2)
  | (none, k2) => (scanEmpty cells gridSize exclude, k2)

/-- `createMazeAttempt` (`adaptiveDifficultyService.ts:645-683`).  The wall
density is carried as an integer percentage (20/28/33); for the three
configured grid sizes `gridSize² * pct / 100` equals the source's
`Math.floor(totalCells * wallDensity)` (12, 28 and 47 walls).  Returns the
maze and the next unused random-stream index. -/
def createMazeAttempt (gridSize wallDensityPct : Nat) (rand : Nat → Nat) (k : Nat) :
    MazeGrid × Nat :=
  let totalCells := gridSize * gridSize
  let wallCount := totalCells * wallDensityPct / 100
  let (cells1, k1) := placeWalls gridSize rand wallCount k (mkEmptyGrid gridSize)
  let startPosition : Coord := ⟨gridSize / 2, 0⟩
  let (keyPosition, k2) := findRandomEmptyPosition cells1 gridSize [startPosition] rand k1
  let (exitPosition, k3) :=
    findRandomEmptyPosition cells1 gridSize [startPosition, keyPosition] rand k2
  let cells2 := cellSet cells1 startPosition CellType.start
  let cells3 := cellSet cells2 keyPosition CellType.key
  let cells4 := cellSet cells3 exitPosition CellType.exit
  let pathToKey := findPath cells4 gridSize startPosition keyPosition
  let pathToExit := findPath cells4 gridSize keyPosition exitPosition
  ({ cells := cells4, gridSize := gridSize, startPosition := startPosition,
     keyPosition := keyPosition, exitPosition := exitPosition,
     optimalPathLength := pathToKey.length + pathToExit.length }, k3)

/-- `createSimpleMaze` (`adaptiveDifficultyService.ts:685-706`): the
deterministic trivial fallback — no walls, start/key/exit on the middle row,
`optimalPathLength = gridSize`. -/
def createSimpleMaze (gridSize : Nat) : MazeGrid :=
  let startPosition : Coord := ⟨gridSize / 2, 0⟩
  let keyPosition : Coord := ⟨gridSize / 2, gridSize / 2⟩
  let exitPosition : Coord := ⟨gridSize / 2, gridSize - 1⟩
  let cells1 := cellSet (mkEmptyGrid gridSize) startPosition CellType.start
  let cells2 := cellSet cells1 keyPosition CellType.key
  let cells3 := cellSet cells2 exitPosition CellType.exit
  { cells := cells3, gridSize := gridSize, startPosition := startPosition,
    keyPosition := keyPosition, exitPosition := exitPosition,
    optimalPathLength := gridSize }

/-- The difficulty selector of `generateMaze`. -/
inductive Difficulty
  | easy
  | medium
  | hard
deriving DecidableEq, Repr

/-- `DifficultyConfig` from `src/types/keyFinder.ts`; wall density as an
integer percentage (see `createMazeAttempt`). -/
structure DifficultyConfig where
  gridSize : Nat
  wallDensityPct : Nat
  timeLimitSeconds : Nat
  optimalMovesMultiplier : ℚ
deriving DecidableEq, Repr

/-- The `difficultyConfigs` table (`adaptiveDifficultyService.ts:604-623`). -/
def difficultyConfigs : Difficulty → DifficultyConfig
  | .easy => { gridSize := 8, wallDensityPct := 20, timeLimitSeconds := 360,
               optimalMovesMultiplier := 13 / 10 }
  | .medium => { gridSize := 10, wallDensityPct := 28, timeLimitSeconds := 300,
                 optimalMovesMultiplier := 3 / 2 }
  | .hard => { gridSize := 12, wallDensityPct := 33, timeLimitSeconds := 240,
               optimalMovesMultiplier := 17 / 10 }

/-- The `do … while (!isValidMaze(maze) && attempts < maxAttempts)` loop of
`generateMaze` (`adaptiveDifficultyService.ts:633-636`), with
`maxAttempts = 50`.  `k` is the next random-stream index, `attempts` the
count so far; returns the last attempted maze and the final attempt count.
`generateMaze` calls it with fuel 50 and `attempts = 0`, so `fuel + attempts
= 50` at every recursive call and the fuel-exhausted first branch (which
would skip the validity test) is unreachable. -/
def genLoop (gridSize wallDensityPct : Nat) (rand : Nat → Nat) :
    Nat → Nat → Nat → MazeGrid × Nat
  | 0, k, attempts => ((createMazeAttempt gridSize wallDensityPct rand k).1, attempts + 1)
  | fuel + 1, k, attempts =>
    let r := createMazeAttempt gridSize wallDensityPct rand k
    if !isValidMaze r.1 && attempts + 1 < 50 then
      genLoop gridSize wallDensityPct rand fuel r.2 (attempts + 1)
    else (r.1, attempts + 1)

/-- `generateMaze` (`adaptiveDifficultyService.ts:625-643`): run the attempt
loop; if the attempt counter reached `maxAttempts = 50`, replace the result
with the trivial fallback maze. -/
def generateMaze (difficulty : Difficulty) (rand : Nat → Nat) : MazeGrid :=
  let config := difficultyConfigs difficulty
  let r := genLoop config.gridSize config.wallDensityPct rand 50 0 0
  if r.2 ≥ 50 then createSimpleMaze config.gridSize else r.1

/-- The sequence of attempts `generateMaze` makes on a given random stream:
`attemptIter … i` is the `(i+1)`-th maze produced by `createMazeAttempt`,
together with the stream index after it (used to state which attempt the
generator returns). -/
def attemptIter (gridSize wallDensityPct : Nat) (rand : Nat → Nat) : Nat → MazeGrid × Nat
  | 0 => createMazeAttempt gridSize wallDensityPct rand 0
  | i + 1 => createMazeAttempt gridSize wallDensityPct rand (attemptIter gridSize wallDensityPct rand i).2

/-- The random-stream index at which attempt `i` starts. -/
def kOf (gridSize wallDensityPct : Nat) (rand : Nat → Nat) : Nat → Nat
  | 0 => 0
  | i + 1 => (attemptIter gridSize wallDensityPct rand i).2

/-- `calculateOptimalMoves` (`pathFinderService.ts:456-460`):
`floor((gridSize − 1) × 1.5 × (1 + levelNumber × 0.1))`, computed exactly as
`(gridSize − 1) · 3 · (10 + levelNumber) / 20` in integer arithmetic. -/
def calculateOptimalMoves (gridSize levelNumber : Nat) : Nat :=
  (gridSize - 1) * 3 * (10 + levelNumber) / 20

/-- Fallback tile for out-of-range grid reads (never reached on positions
inside a well-formed grid). -/
def defaultGridTile : GridTile :=
  { row := 0, col := 0, pattern := defaultPattern, rotation := 0,
    isStart := false, isEnd := false, isSelected := false, isInPath := false }

/-- Read `tiles[row][col]`. -/
def tileGet (tiles : List (List GridTile)) (p : Coord) : GridTile :=
  (tiles.getD p.row []).getD p.col defaultGridTile

/-- `generateGrid` (`pathFinderService.ts:419-454`): every cell — the marked
start and end cells included — draws one random pattern (difficulty-capped at
`min(levelNumber, 3)`) and one random rotation from `{0, 90, 180, 270}`.
The cell at row-major index `idx` consumes stream values `2·idx` (pattern)
and `2·idx + 1` (rotation), exactly the order the source's nested loops draw
them. -/
def generateGrid (gridSize levelNumber : Nat) (rand : Nat → Nat) : GridConfig :=
  let maxDifficulty := min levelNumber 3
  let startPosition : Coord := ⟨gridSize / 2, 0⟩
  let endPosition : Coord := ⟨gridSize / 2, gridSize - 1⟩
  let tiles := (List.range gridSize).map fun row =>
    (List.range gridSize).map fun col =>
      let idx := row * gridSize + col
      let pattern := getRandomTilePattern maxDifficulty (rand (2 * idx))
      let rotation := [0, 90, 180, 270].getD (rand (2 * idx + 1) % 4) 0
      { row := row, col := col, pattern := pattern, rotation := rotation,
        isStart := decide (row = startPosition.row) && decide (col = startPosition.col),
        isEnd := decide (row = endPosition.row) && decide (col = endPosition.col),
        isSelected := false, isInPath := false : GridTile }
  { tiles := tiles, gridSize := gridSize, startPosition := startPosition,
    endPosition := endPosition,
    optimalMoves := calculateOptimalMoves gridSize levelNumber }

/-- The rotated exit set of the tile at `p` (the
`rotateConnectionPoints(tile.pattern.connection_points, tile.rotation)` the
validator computes for every examined tile). -/
def tileConn (g : GridConfig) (p : Coord) : ConnectionPoints :=
  let t := tileGet g.tiles p
  rotateConnectionPoints t.pattern.connection_points t.rotation

/-- The `neighbors` array of `validatePath` (`pathFinderService.ts:105-110`):
target row/column in `ℤ` (so `row − 1` at row 0 is the rejected value −1),
outgoing direction, and the direction the neighbor must answer with. -/
def candidatesOf (p : Coord) : List (Int × Int × Side × Side) :=
  [ ((p.row : Int) - 1, (p.col : Int), Side.top, Side.bottom),
    ((p.row : Int) + 1, (p.col : Int), Side.bottom, Side.top),
    ((p.row : Int), (p.col : Int) - 1, Side.left, Side.right),
    ((p.row : Int), (p.col : Int) + 1, Side.right, Side.left) ]

/-- One iteration of the `for (const neighbor of neighbors)` loop of
`validatePath` (`pathFinderService.ts:112-142`): skip out-of-bounds or
visited targets, require the current tile's exit, then the neighbor's
answering exit; on success mark visited and append to the queue. -/
def stepNeighbor (g : GridConfig) (curConn : ConnectionPoints) (curPath : List Coord)
    (acc : List (List Bool) × List PathEntry) :
    Int × Int × Side × Side → List (List Bool) × List PathEntry
  | (nr, nc, direction, opposite) =>
    if nr < 0 ∨ nr ≥ (g.gridSize : Int) ∨ nc < 0 ∨ nc ≥ (g.gridSize : Int)
        ∨ visGet acc.1 ⟨nr.toNat, nc.toNat⟩ = true then acc
    else if sideGet curConn direction = false then acc
    else
      let np : Coord := ⟨nr.toNat, nc.toNat⟩
      let neighborConnections := tileConn g np
      if sideGet neighborConnections opposite = true then
        (visSet acc.1 np, acc.2 ++ [⟨np, curPath ++ [np]⟩])
      else acc

/-- The `while (queue.length > 0)` loop of `validatePath`
(`pathFinderService.ts:89-143`), with fuel.  `validatePath` supplies fuel
`gridSize²`, which never runs out: every iteration either dequeues without
enqueuing or trades marked-unvisited cells one-for-one against queue growth
(proved in `bfsLoop_spec`). -/
def bfsLoop (g : GridConfig) : Nat → List (List Bool) → List PathEntry → PathValidationResult
  | _, _, [] => { isValid := false, pathTiles := [], message := "No valid path found. Keep adjusting tiles!" }
  | 0, _, _ :: _ => { isValid := false, pathTiles := [], message := "No valid path found. Keep adjusting tiles!" }
  | fuel + 1, visited, cur :: rest =>
    if cur.pos = g.endPosition then
      { isValid := true, pathTiles := cur.path, message := "Valid path found!" }
    else
      let acc := (candidatesOf cur.pos).foldl (stepNeighbor g (tileConn g cur.pos) cur.path)
        (visited, rest)
      bfsLoop g fuel acc.1 acc.2

/-- `validatePath` (`pathFinderService.ts:79-150`): BFS from the start
position with mutual edge-matching; the start cell is marked visited up
front and the queue holds positions with their accumulated paths. -/
def validatePath (g : GridConfig) : PathValidationResult :=
  bfsLoop g (g.gridSize * g.gridSize) (visSet (mkFalseGrid g.gridSize) g.startPosition)
    [⟨g.startPosition, [g.startPosition]⟩]

/-- `p` lies inside the `gridSize × gridSize` board. -/
def inGrid (g : GridConfig) (p : Coord) : Prop :=
  p.row < g.gridSize ∧ p.col < g.gridSize

instance (g : GridConfig) (p : Coord) : Decidable (inGrid g p) := by
  unfold inGrid; infer_instance

/-- `q` differs from `p` by exactly one unit step along one axis. -/
def UnitStep (p q : Coord) : Prop :=
  (p.row = q.row + 1 ∧ p.col = q.col) ∨ (q.row = p.row + 1 ∧ p.col = q.col) ∨
  (p.col = q.col + 1 ∧ p.row = q.row) ∨ (q.col = p.col + 1 ∧ p.row = q.row)

instance (p q : Coord) : Decidable (UnitStep p q) := by
  unfold UnitStep; infer_instance

/-- The validator's notion of a legal move from `p` to an in-bounds neighbor
`q`: the cells are axis-adjacent, the rotated exits of the tile at `p`
include the side facing `q`, and the rotated exits of the tile at `q` include
the side facing back. -/
def LegalStep (g : GridConfig) (p q : Coord) : Prop :=
  q.row < g.gridSize ∧ q.col < g.gridSize ∧
  ((p.row = q.row + 1 ∧ p.col = q.col ∧
      sideGet (tileConn g p) Side.top = true ∧ sideGet (tileConn g q) Side.bottom = true) ∨
   (q.row = p.row + 1 ∧ p.col = q.col ∧
      sideGet (tileConn g p) Side.bottom = true ∧ sideGet (tileConn g q) Side.top = true) ∨
   (p.col = q.col + 1 ∧ p.row = q.row ∧
      sideGet (tileConn g p) Side.left = true ∧ sideGet (tileConn g q) Side.right = true) ∨
   (q.col = p.col + 1 ∧ p.row = q.row ∧
      sideGet (tileConn g p) Side.right = true ∧ sideGet (tileConn g q) Side.left = true))

instance (g : GridConfig) (p q : Coord) : Decidable (LegalStep g p q) := by
  unfold LegalStep; infer_instance

/-- `l` is a chain of mutually-matching grid cells leading from the start
position to `endP`: non-empty, starts at the start position, ends at `endP`,
stays on the board, and every consecutive pair is a `LegalStep`. -/
def SpecChainTo (g : GridConfig) (l : List Coord) (endP : Coord) : Prop :=
  l ≠ [] ∧ l.head? = some g.startPosition ∧ l.getLast? = some endP ∧
  (∀ p ∈ l, inGrid g p) ∧ List.Chain' (LegalStep g) l

/-- The claim-side solvability notion: some chain of grid cells runs from the
start position to the end position with mutually-facing rotated exits at
every link. -/
def SpecChain (g : GridConfig) (l : List Coord) : Prop :=
  SpecChainTo g l g.endPosition

/-- Reachability in the mutual-edge-matching step graph, from the start position. -/
inductive Reach (g : GridConfig) : Coord → Prop
  | start : Reach g g.startPosition
  | step {p q : Coord} : Reach g p → LegalStep g p q → Reach g q

/-- A straight-horizontal tile for the hand-built example grids. -/
def exTileH (row col : Nat) (isStart isEnd : Bool) : GridTile :=
  { row := row, col := col, pattern := defaultPattern, rotation := 0,
    isStart := isStart, isEnd := isEnd, isSelected := false, isInPath := false }

/-- A hand-built 1×1 grid whose single cell is both start and end. -/
def exGrid1 : GridConfig :=
  { tiles := [[exTileH 0 0 true true]], gridSize := 1,
    startPosition := ⟨0, 0⟩, endPosition := ⟨0, 0⟩, optimalMoves := 1 }

/-- A hand-built 2×2 grid of straight-horizontal tiles; the bottom row links
the start `(1,0)` to the end `(1,1)`. -/
def exGrid2 : GridConfig :=
  { tiles := [[exTileH 0 0 false false, exTileH 0 1 false false],
              [exTileH 1 0 true false, exTileH 1 1 false true]],
    gridSize := 2, startPosition := ⟨1, 0⟩, endPosition := ⟨1, 1⟩, optimalMoves := 1 }

/-- An all-empty 5×5 maze (for exercising `canMove` at the boundary). -/
def exMaze5 : MazeGrid :=
  { cells := mkEmptyGrid 5, gridSize := 5, startPosition := ⟨2, 0⟩,
    keyPosition := ⟨1, 1⟩, exitPosition := ⟨2, 4⟩, optimalPathLength := 5 }

/-- Random stream under which every cell of a generated grid draws the
straight-vertical pattern (index 1 of the six difficulty-1 patterns) at
rotation 0 (even indices feed pattern draws, odd indices rotation draws). -/
def randVert0 : Nat → Nat := fun k => if k % 2 = 0 then 1 else 0

/-- Constant random stream 1: every cell draws the straight-vertical pattern
at rotation 90. -/
def randOne : Nat → Nat := fun _ => 1

/-- One 28-value attempt block for the easy maze configuration that produces
an unsolvable layout: walls at `(3,0)`, `(5,0)` and `(4,1)` seal off the start
cell `(4,0)` (the remaining nine draws collide at `(7,7)`); the key goes to
`(0,0)` and the exit to `(0,1)`, both unreachable from the walled-in start. -/
def seqInvalid : List Nat :=
  [3, 0, 5, 0, 4, 1, 7, 7, 7, 7, 7, 7, 7, 7, 7, 7, 7, 7, 7, 7, 7, 7, 7, 7, 0, 0, 0, 1]

/-- One 28-value attempt block that produces a solvable layout: all twelve
wall draws collide at `(7,7)`, the key goes next to the start at `(4,1)` and
the exit beside it at `(4,2)`. -/
def seqSolvable : List Nat :=
  [7, 7, 7, 7, 7, 7, 7, 7, 7, 7, 7, 7, 7, 7, 7, 7, 7, 7, 7, 7, 7, 7, 7, 7, 4, 1, 4, 2]

/-- Random stream for the easy maze configuration whose first 49 generation
attempts are unsolvable and whose 50th attempt is solvable.  Each attempt
consumes exactly 28 stream values (24 wall draws plus one successful key draw
and one successful exit draw), so attempt `i` starts at index `28·i` and the
50th attempt starts at index 1372. -/
def randFails49 : Nat → Nat := fun k =>
  if k < 1372 then seqInvalid.getD (k % 28) 0 else seqSolvable.getD ((k - 1372) % 28) 0

/-- Random stream whose very first easy-maze attempt is solvable. -/
def randSolvable : Nat → Nat := fun k => seqSolvable.getD (k % 28) 0

/-- The unit offset `canMove` applies for a direction, as a `(row, col)`
pair in `ℤ` (up/left from row/column 0 give −1). -/
def moveTarget (pos : Coord) (direction : Dir) : Int × Int :=
  match direction with
  | .up => ((pos.row : Int) - 1, (pos.col : Int))
  | .down => ((pos.row : Int) + 1, (pos.col : Int))
  | .left => ((pos.row : Int), (pos.col : Int) - 1)
  | .right => ((pos.row : Int), (pos.col : Int) + 1)

/-- The target cell lies outside the maze bounds. -/
def mazeOutOfBounds (maze : MazeGrid) (rc : Int × Int) : Prop :=
  rc.1 < 0 ∨ rc.1 ≥ (maze.gridSize : Int) ∨ rc.2 < 0 ∨ rc.2 ≥ (maze.gridSize : Int)

instance (maze : MazeGrid) (rc : Int × Int) : Decidable (mazeOutOfBounds maze rc) := by
  unfold mazeOutOfBounds; infer_instance

def VisShape (n : Nat) (v : List (List Bool)) : Prop :=
  v.length = n ∧ ∀ row ∈ v, row.length = n

def countFalse (n : Nat) (v : List (List Bool)) : Nat :=
  ((Finset.range n ×ˢ Finset.range n).filter fun rc => visGet v ⟨rc.1, rc.2⟩ = false).card


/-- The side of `p` that faces the axis-adjacent cell `q`. -/
def stepSide (p q : Coord) : Side :=
  if p.row = q.row + 1 then Side.top
  else if q.row = p.row + 1 then Side.bottom
  else if p.col = q.col + 1 then Side.left
  else Side.right

/-- The candidate record `validatePath` builds for the neighbor on side `s` of `p`. -/
def candFor (p : Coord) (s : Side) : Int × Int × Side × Side :=
  match s with
  | .top => ((p.row : Int) - 1, (p.col : Int), Side.top, Side.bottom)
  | .bottom => ((p.row : Int) + 1, (p.col : Int), Side.bottom, Side.top)
  | .left => ((p.row : Int), (p.col : Int) - 1, Side.left, Side.right)
  | .right => ((p.row : Int), (p.col : Int) + 1, Side.right, Side.left)

/-- Invariant of a single BFS queue entry: its path is a legal chain from the
start to its position, repeats no cell, and consists of visited cells. -/
def EntryOk (g : GridConfig) (v : List (List Bool)) (e : PathEntry) : Prop :=
  SpecChainTo g e.path e.pos ∧ e.path.Nodup ∧ ∀ p ∈ e.path, visGet v p = true

/-- The BFS loop invariant of `validatePath`: the visited grid is well-shaped,
the start is visited, every queued entry is well-formed, every visited cell is
either still queued or has all its legal neighbors visited, and the end
position, if visited, is still queued (the loop returns the moment it is
dequeued). -/
def BfsInv (g : GridConfig) (v : List (List Bool)) (q : List PathEntry) : Prop :=
  VisShape g.gridSize v ∧
  visGet v g.startPosition = true ∧
  (∀ e ∈ q, EntryOk g v e) ∧
  (∀ p : Coord, visGet v p = true →
    (∃ e ∈ q, e.pos = p) ∨ ∀ m, LegalStep g p m → visGet v m = true) ∧
  (visGet v g.endPosition = true → ∃ e ∈ q, e.pos = g.endPosition)

/-- What one `stepNeighbor` application guarantees, relating the accumulator
before (`acc`) and after (`acc2`) processing the candidate on side `s` of the
dequeued cell `cur` whose path is `path`: shapes and entry invariants are
preserved, visited flags only grow, the unvisited-count-plus-queue-length sum
is unchanged, queue entries are only appended (and any appended entry extends
`path` by one legal step), newly visited cells are enqueued, and afterwards
the legal neighbor on side `s` (if any) is visited. -/
def StepPost (g : GridConfig) (cur : Coord) (path : List Coord)
    (acc acc2 : List (List Bool) × List PathEntry) (s : Side) : Prop :=
  VisShape g.gridSize acc2.1 ∧
  (∀ p, visGet acc.1 p = true → visGet acc2.1 p = true) ∧
  (countFalse g.gridSize acc2.1 + acc2.2.length = countFalse g.gridSize acc.1 + acc.2.length) ∧
  (∀ e ∈ acc.2, e ∈ acc2.2) ∧
  (∀ e ∈ acc2.2, EntryOk g acc2.1 e) ∧
  (∀ e ∈ acc2.2, e ∈ acc.2 ∨ ∃ np, e = ⟨np, path ++ [np]⟩ ∧ LegalStep g cur np) ∧
  (∀ p, visGet acc2.1 p = true → visGet acc.1 p = true ∨ ∃ e ∈ acc2.2, e.pos = p) ∧
  (∀ q, LegalStep g cur q → stepSide cur q = s → visGet acc2.1 q = true)

-- THEOREMS

/-- C6: for every `ConnectionPoints` value and rotations `r1, r2` in
`{0, 90, 180, 270}`, rotating by `r1` then `r2` equals one rotation by
`(r1 + r2) % 360`, and four successive 90° rotations restore the original
connection set. -/
theorem C6_rotation_composition :
    (∀ (cp : ConnectionPoints) (r1 r2 : Nat),
        r1 ∈ [0, 90, 180, 270] → r2 ∈ [0, 90, 180, 270] →
        rotateConnectionPoints (rotateConnectionPoints cp r1) r2 =
          rotateConnectionPoints cp ((r1 + r2) % 360)) ∧
    (∀ cp : ConnectionPoints,
        rotateConnectionPoints (rotateConnectionPoints (rotateConnectionPoints
          (rotateConnectionPoints cp 90) 90) 90) 90 = cp) := by
  constructor
  · rintro ⟨a, b, c, d⟩ r1 r2 h1 h2
    fin_cases h1 <;> fin_cases h2 <;> revert a b c d <;> decide
  · rintro ⟨a, b, c, d⟩
    revert a b c d
    decide

theorem C6_witness :
    rotateConnectionPoints (rotateConnectionPoints ⟨true, false, false, true⟩ 90) 180 =
      rotateConnectionPoints ⟨true, false, false, true⟩ ((90 + 180) % 360) :=
  C6_rotation_composition.1 ⟨true, false, false, true⟩ 90 180 (by decide) (by decide)

/-- C3: `flipTile` is shape-dependent — a straight tile adds 90 when its
rotation mod 180 is 0 and 270 otherwise (mod 360), a corner swaps 90 and 270
and fixes 0 and 180, and a T-junction or cross adds 180 mod 360. -/
theorem C3_flip_by_shape (tile : GridTile) :
    (tile.pattern.pattern_type = PatternType.straight →
      (flipTile tile).rotation =
        if tile.rotation % 180 = 0 then (tile.rotation + 90) % 360
        else (tile.rotation + 270) % 360) ∧
    (tile.pattern.pattern_type = PatternType.corner →
      (flipTile tile).rotation =
        if tile.rotation = 90 then 270 else if tile.rotation = 270 then 90
        else tile.rotation) ∧
    ((tile.pattern.pattern_type = PatternType.t_junction ∨
        tile.pattern.pattern_type = PatternType.cross) →
      (flipTile tile).rotation = (tile.rotation + 180) % 360) := by
  refine ⟨fun h => ?_, fun h => ?_, fun h => ?_⟩
  · simp [flipTile, h]
  · simp [flipTile, h]
  · rcases h with h | h <;> simp [flipTile, h]

theorem C3_witness :
    (flipTile { row := 0, col := 0, pattern := defaultPattern, rotation := 0,
                isStart := false, isEnd := false, isSelected := false,
                isInPath := false }).rotation = 90 := by
  have h := (C3_flip_by_shape
    { row := 0, col := 0, pattern := defaultPattern, rotation := 0,
      isStart := false, isEnd := false, isSelected := false, isInPath := false }).1 rfl
  simpa using h

/-- C7: `flipTile` (and the plain 180° variant) is an involution on every
shape category for every rotation in `{0, 90, 180, 270}`. -/
theorem C7_flip_involution (tile : GridTile) (h : tile.rotation ∈ [0, 90, 180, 270]) :
    (flipTile (flipTile tile)).rotation = tile.rotation ∧
    (flipTileBasic (flipTileBasic tile)).rotation = tile.rotation := by
  simp only [List.mem_cons, List.not_mem_nil, or_false] at h
  obtain h | h | h | h := h <;>
    cases hpt : tile.pattern.pattern_type <;>
      simp [flipTile, flipTileBasic, hpt, h]

theorem C7_witness :
    (flipTile (flipTile
      { row := 0, col := 0,
        pattern := { defaultPattern with pattern_type := PatternType.corner },
        rotation := 90, isStart := false, isEnd := false, isSelected := false,
        isInPath := false })).rotation = 90 ∧
    (flipTileBasic (flipTileBasic
      { row := 0, col := 0,
        pattern := { defaultPattern with pattern_type := PatternType.corner },
        rotation := 90, isStart := false, isEnd := false, isSelected := false,
        isInPath := false })).rotation = 90 :=
  C7_flip_involution _ (by decide)

/-- C8: the path-finder `calculateScore` equals the specification's
reference definition for all inputs, and inputs `(45, 240, 10, 10)` yield
timeBonus 50, movePenalty 0, finalScore 150, efficiency 100. -/
theorem C8_score_matches_spec :
    (∀ completionTime timeLimit totalMoves optimalMoves : Nat,
        calculateScore completionTime timeLimit totalMoves optimalMoves =
          calculateScoreSpec completionTime timeLimit totalMoves optimalMoves) ∧
    calculateScore 45 240 10 10 =
      { baseScore := 100, timeBonus := 50, movePenalty := 0, finalScore := 150,
        efficiency := 100 } := by
  constructor
  · intro c l t o
    have hm : (if t > o then (t - o) * 10 else 0) =
        (max 0 ((t : Int) - (o : Int))).toNat * 10 := by
      by_cases h : o < t
      · simp only [gt_iff_lt, if_pos h]
        omega
      · simp only [gt_iff_lt, if_neg h]
        omega
    simp only [calculateScore, calculateScoreSpec, hm]
  · unfold calculateScore
    norm_num

/-- C9: `canMove` applies a unit offset and returns
`{canMove := false, newPosition := none, hitWall := true}` whenever the
target cell leaves the grid bounds or is a wall, and otherwise allows the
move with the target cell; from `(0,0)` on a 5×5 maze, moving up or left is
rejected with `hitWall = true` and `newPosition = none`. -/
theorem C9_canMove_spec :
    (∀ (pos : Coord) (direction : Dir) (maze : MazeGrid),
        mazeOutOfBounds maze (moveTarget pos direction) ∨
          cellGet maze.cells ⟨(moveTarget pos direction).1.toNat,
            (moveTarget pos direction).2.toNat⟩ = CellType.wall →
        canMove pos direction maze =
          { canMove := false, newPosition := none, hitWall := true }) ∧
    (∀ (pos : Coord) (direction : Dir) (maze : MazeGrid),
        ¬ mazeOutOfBounds maze (moveTarget pos direction) →
        cellGet maze.cells ⟨(moveTarget pos direction).1.toNat,
          (moveTarget pos direction).2.toNat⟩ ≠ CellType.wall →
        canMove pos direction maze =
          { canMove := true,
            newPosition := some ⟨(moveTarget pos direction).1.toNat,
              (moveTarget pos direction).2.toNat⟩,
            hitWall := false }) ∧
    canMove ⟨0, 0⟩ Dir.up exMaze5 =
      { canMove := false, newPosition := none, hitWall := true } ∧
    canMove ⟨0, 0⟩ Dir.left exMaze5 =
      { canMove := false, newPosition := none, hitWall := true } := by
  refine ⟨?_, ?_, by decide, by decide⟩
  · intro pos direction maze h
    rcases h with h | h
    · cases direction <;>
        simp_all [canMove, moveTarget, mazeOutOfBounds]
    · cases direction <;>
        · simp only [canMove, moveTarget] at h ⊢
          split
          · rfl
          · simp_all
  · intro pos direction maze h1 h2
    cases direction <;>
      · simp only [canMove, moveTarget, mazeOutOfBounds] at h1 h2 ⊢
        rw [if_neg h1, if_neg h2]

theorem C9_witness :
    canMove ⟨0, 3⟩ Dir.up exMaze5 =
      { canMove := false, newPosition := none, hitWall := true } :=
  C9_canMove_spec.1 ⟨0, 3⟩ Dir.up exMaze5 (Or.inl (by decide))

/-- `((List.range n).map f)[i]` with default is `f i` for `i < n`. -/
theorem getD_range_map {α : Type} (f : Nat → α) (n i : Nat) (d : α) (h : i < n) :
    ((List.range n).map f).getD i d = f i := by
  rw [List.getD_eq_getElem?_getD, List.getElem?_map, List.getElem?_range h]
  rfl

/-- C5 (amended): in every grid `generateGrid` produces, the start and end
cells sit at the fixed positions `(⌊N/2⌋, 0)` and `(⌊N/2⌋, N−1)` and carry
the `isStart`/`isEnd` marks, but they receive a random pattern and a random
rotation from the same draws as every other cell — they are not exempted
from rotation, and an exit toward the interior is not guaranteed. -/
theorem C5_amended (gridSize levelNumber : Nat) (rand : Nat → Nat) (h : 0 < gridSize) :
    (generateGrid gridSize levelNumber rand).startPosition = ⟨gridSize / 2, 0⟩ ∧
    (generateGrid gridSize levelNumber rand).endPosition = ⟨gridSize / 2, gridSize - 1⟩ ∧
    (tileGet (generateGrid gridSize levelNumber rand).tiles ⟨gridSize / 2, 0⟩).isStart = true ∧
    (tileGet (generateGrid gridSize levelNumber rand).tiles
      ⟨gridSize / 2, gridSize - 1⟩).isEnd = true ∧
    (tileGet (generateGrid gridSize levelNumber rand).tiles ⟨gridSize / 2, 0⟩).pattern =
      getRandomTilePattern (min levelNumber 3) (rand (2 * (gridSize / 2 * gridSize))) ∧
    (tileGet (generateGrid gridSize levelNumber rand).tiles ⟨gridSize / 2, 0⟩).rotation =
      [0, 90, 180, 270].getD (rand (2 * (gridSize / 2 * gridSize) + 1) % 4) 0 ∧
    (tileGet (generateGrid gridSize levelNumber rand).tiles
        ⟨gridSize / 2, gridSize - 1⟩).rotation =
      [0, 90, 180, 270].getD
        (rand (2 * (gridSize / 2 * gridSize + (gridSize - 1)) + 1) % 4) 0 := by
  have hrow : gridSize / 2 < gridSize := Nat.div_lt_self h one_lt_two
  have hlast : gridSize - 1 < gridSize := by omega
  unfold generateGrid tileGet
  simp only [getD_range_map _ _ _ _ hrow, getD_range_map _ _ _ _ h,
    getD_range_map _ _ _ _ hlast]
  simp

/-- C5 is false as stated: under the stream `randVert0` the generated 5×5
level-1 grid has its start tile (a straight-vertical at rotation 0) with no
exit toward the interior (`right = false`), and under `randOne` the start
tile has rotation 90 — so start tiles are neither unrotated nor guaranteed
an interior-facing exit. -/
theorem C5_counterexample :
    (generateGrid 5 1 randVert0).startPosition = ⟨2, 0⟩ ∧
    (tileGet (generateGrid 5 1 randVert0).tiles ⟨2, 0⟩).rotation = 0 ∧
    sideGet (tileConn (generateGrid 5 1 randVert0) ⟨2, 0⟩) Side.right = false ∧
    (generateGrid 5 1 randOne).startPosition = ⟨2, 0⟩ ∧
    (tileGet (generateGrid 5 1 randOne).tiles ⟨2, 0⟩).rotation = 90 := by
  decide

theorem C5_witness :
    (generateGrid 3 1 randOne).startPosition = ⟨3 / 2, 0⟩ ∧
    (generateGrid 3 1 randOne).endPosition = ⟨3 / 2, 3 - 1⟩ ∧
    (tileGet (generateGrid 3 1 randOne).tiles ⟨3 / 2, 0⟩).isStart = true ∧
    (tileGet (generateGrid 3 1 randOne).tiles ⟨3 / 2, 3 - 1⟩).isEnd = true ∧
    (tileGet (generateGrid 3 1 randOne).tiles ⟨3 / 2, 0⟩).pattern =
      getRandomTilePattern (min 1 3) (randOne (2 * (3 / 2 * 3))) ∧
    (tileGet (generateGrid 3 1 randOne).tiles ⟨3 / 2, 0⟩).rotation =
      [0, 90, 180, 270].getD (randOne (2 * (3 / 2 * 3) + 1) % 4) 0 ∧
    (tileGet (generateGrid 3 1 randOne).tiles ⟨3 / 2, 3 - 1⟩).rotation =
      [0, 90, 180, 270].getD (randOne (2 * (3 / 2 * 3 + (3 - 1)) + 1) % 4) 0 :=
  C5_amended 3 1 randOne (by decide)



/-- `isValidMaze` says exactly that both BFS sub-paths are non-empty. -/
theorem isValidMaze_iff (m : MazeGrid) :
    isValidMaze m = true ↔
      (findPath m.cells m.gridSize m.startPosition m.keyPosition ≠ [] ∧
        findPath m.cells m.gridSize m.keyPosition m.exitPosition ≠ []) := by
  unfold isValidMaze
  by_cases h : (findPath m.cells m.gridSize m.startPosition m.keyPosition).length = 0
  · rw [if_pos h]
    simp [List.length_eq_zero.mp h]
  · rw [if_neg h]
    simp only [decide_eq_true_eq, List.length_pos]
    constructor
    · intro h2
      exact ⟨fun e => h (by simp [e]), h2⟩
    · exact fun h2 => h2.2

/-- Unfolding equation for one `genLoop` iteration. -/
theorem genLoop_succ (gs wd : Nat) (rand : Nat → Nat) (fuel k att : Nat) :
    genLoop gs wd rand (fuel + 1) k att =
      if !isValidMaze (createMazeAttempt gs wd rand k).1 && decide (att + 1 < 50) then
        genLoop gs wd rand fuel (createMazeAttempt gs wd rand k).2 (att + 1)
      else ((createMazeAttempt gs wd rand k).1, att + 1) := rfl

/-- A `genLoop` iteration on an invalid attempt (with attempts remaining)
recurses on the rest of the stream. -/
theorem genLoop_step_invalid (gs wd : Nat) (rand : Nat → Nat) (fuel k att : Nat)
    (hv : isValidMaze (createMazeAttempt gs wd rand k).1 = false)
    (ha : att + 1 < 50) :
    genLoop gs wd rand (fuel + 1) k att =
      genLoop gs wd rand fuel (createMazeAttempt gs wd rand k).2 (att + 1) := by
  rw [genLoop_succ, hv]
  simp [ha]

/-- The 50th `genLoop` iteration stops regardless of the attempt's validity. -/
theorem genLoop_step_last (gs wd : Nat) (rand : Nat → Nat) (fuel k : Nat) :
    genLoop gs wd rand (fuel + 1) k 49 = ((createMazeAttempt gs wd rand k).1, 50) := by
  rw [genLoop_succ]
  norm_num

/-- The loop either stops on a valid maze or uses up all 50 attempts. -/
theorem genLoop_valid (gs wd : Nat) (rand : Nat → Nat) :
    ∀ fuel att k, 49 ≤ fuel + att →
      isValidMaze (genLoop gs wd rand fuel k att).1 = true ∨
        50 ≤ (genLoop gs wd rand fuel k att).2 := by
  intro fuel
  induction fuel with
  | zero =>
    intro att k h
    right
    simp only [genLoop]
    omega
  | succ f ih =>
    intro att k h
    rw [genLoop_succ]
    by_cases hv : isValidMaze (createMazeAttempt gs wd rand k).1 = true
    · simp [hv]
    · have hv2 : isValidMaze (createMazeAttempt gs wd rand k).1 = false :=
        Bool.eq_false_iff.mpr hv
      by_cases ha : att + 1 < 50
      · simp only [hv2, Bool.not_false, Bool.true_and, decide_eq_true ha, if_pos]
        exact ih (att + 1) (createMazeAttempt gs wd rand k).2 (by omega)
      · simp only [hv2, ha]
        simp
        omega

/-- C1: for every difficulty tier and every random stream, `generateMaze`
returns a maze whose start→key and key→exit BFS paths are both non-empty —
no unsolvable maze is ever returned, the trivial fallback included. -/
theorem C1_generateMaze_solvable (difficulty : Difficulty) (rand : Nat → Nat) :
    findPath (generateMaze difficulty rand).cells (generateMaze difficulty rand).gridSize
      (generateMaze difficulty rand).startPosition
      (generateMaze difficulty rand).keyPosition ≠ [] ∧
    findPath (generateMaze difficulty rand).cells (generateMaze difficulty rand).gridSize
      (generateMaze difficulty rand).keyPosition
      (generateMaze difficulty rand).exitPosition ≠ [] := by
  rw [← isValidMaze_iff]
  show isValidMaze
    (if (genLoop (difficultyConfigs difficulty).gridSize
          (difficultyConfigs difficulty).wallDensityPct rand 50 0 0).2 ≥ 50 then
        createSimpleMaze (difficultyConfigs difficulty).gridSize
      else (genLoop (difficultyConfigs difficulty).gridSize
          (difficultyConfigs difficulty).wallDensityPct rand 50 0 0).1) = true
  by_cases hge : (genLoop (difficultyConfigs difficulty).gridSize
      (difficultyConfigs difficulty).wallDensityPct rand 50 0 0).2 ≥ 50
  · rw [if_pos hge]
    cases difficulty <;> decide
  · rw [if_neg hge]
    rcases genLoop_valid (difficultyConfigs difficulty).gridSize
        (difficultyConfigs difficulty).wallDensityPct rand 50 0 0 (by omega) with hv | h50
    · exact hv
    · omega

/-- `kOf` indexes the stream exactly where `attemptIter` resumes. -/
theorem attemptIter_kOf (gs wd : Nat) (rand : Nat → Nat) (i : Nat) :
    createMazeAttempt gs wd rand (kOf gs wd rand i) = attemptIter gs wd rand i := by
  cases i <;> rfl

/-- If attempts `att, …, att+i−1` are invalid and attempt `att+i` (with
`att+i ≤ 49`) is valid, the loop stops at attempt `att+i` and returns it. -/
theorem genLoop_first_valid (gs wd : Nat) (rand : Nat → Nat) :
    ∀ i att fuel, att + fuel = 50 → att + i ≤ 49 →
      (∀ j, j < i → isValidMaze (attemptIter gs wd rand (att + j)).1 = false) →
      isValidMaze (attemptIter gs wd rand (att + i)).1 = true →
      genLoop gs wd rand fuel (kOf gs wd rand att) att =
        ((attemptIter gs wd rand (att + i)).1, att + i + 1) := by
  intro i
  induction i with
  | zero =>
    intro att fuel hf ha hinv hval
    obtain ⟨f, rfl⟩ : ∃ f, fuel = f + 1 := ⟨fuel - 1, by omega⟩
    rw [genLoop_succ, attemptIter_kOf]
    rw [Nat.add_zero] at hval
    simp [hval]
  | succ i ih =>
    intro att fuel hf ha hinv hval
    obtain ⟨f, rfl⟩ : ∃ f, fuel = f + 1 := ⟨fuel - 1, by omega⟩
    have h0 : isValidMaze (attemptIter gs wd rand att).1 = false := by
      simpa using hinv 0 (by omega)
    rw [genLoop_succ, attemptIter_kOf, h0]
    have hlt : att + 1 < 50 := by omega
    simp only [Bool.not_false, Bool.true_and, decide_eq_true hlt, if_pos]
    rw [show (attemptIter gs wd rand att).2 = kOf gs wd rand (att + 1) from rfl]
    have hrec := ih (att + 1) f (by omega) (by omega)
      (fun j hj => by
        have := hinv (j + 1) (by omega)
        rwa [show att + (j + 1) = att + 1 + j from by omega] at this)
      (by rwa [show att + (i + 1) = att + 1 + i from by omega] at hval)
    rw [hrec, show att + 1 + i = att + (i + 1) from by omega]

/-- If attempts `att, …, 48` are all invalid, the loop uses all 50 attempts. -/
theorem genLoop_exhausts (gs wd : Nat) (rand : Nat → Nat) :
    ∀ fuel att, att + fuel = 50 → att ≤ 49 →
      (∀ j, att ≤ j → j ≤ 48 → isValidMaze (attemptIter gs wd rand j).1 = false) →
      (genLoop gs wd rand fuel (kOf gs wd rand att) att).2 = 50 := by
  intro fuel
  induction fuel with
  | zero => omega
  | succ f ih =>
    intro att hf ha hinv
    by_cases hlast : att = 49
    · subst hlast
      rw [genLoop_step_last]
    · have h0 : isValidMaze (attemptIter gs wd rand att).1 = false :=
        hinv att le_rfl (by omega)
      rw [genLoop_succ, attemptIter_kOf, h0]
      have hlt : att + 1 < 50 := by omega
      simp only [Bool.not_false, Bool.true_and, decide_eq_true hlt, if_pos]
      rw [show (attemptIter gs wd rand att).2 = kOf gs wd rand (att + 1) from rfl]
      exact ih (att + 1) (by omega) (by omega) (fun j h1 h2 => hinv j (by omega) h2)

/-- C4 (amended): the trivial fallback is constructed exactly when the
first 49 attempts all fail: if some attempt `i ≤ 48` is the first valid one,
that attempt's maze is returned; if attempts `0..48` are all invalid the
loop uses all 50 attempts and the fallback is returned — even when the 50th
attempt itself produced a valid maze. -/
theorem C4_amended_fallback_rule (difficulty : Difficulty) (rand : Nat → Nat) :
    (∀ i, i ≤ 48 →
      (∀ j, j < i →
        isValidMaze (attemptIter (difficultyConfigs difficulty).gridSize
          (difficultyConfigs difficulty).wallDensityPct rand j).1 = false) →
      isValidMaze (attemptIter (difficultyConfigs difficulty).gridSize
        (difficultyConfigs difficulty).wallDensityPct rand i).1 = true →
      generateMaze difficulty rand =
        (attemptIter (difficultyConfigs difficulty).gridSize
          (difficultyConfigs difficulty).wallDensityPct rand i).1) ∧
    ((∀ j, j ≤ 48 →
        isValidMaze (attemptIter (difficultyConfigs difficulty).gridSize
          (difficultyConfigs difficulty).wallDensityPct rand j).1 = false) →
      generateMaze difficulty rand =
        createSimpleMaze (difficultyConfigs difficulty).gridSize) := by
  constructor
  · intro i hi hinv hval
    have run := genLoop_first_valid (difficultyConfigs difficulty).gridSize
      (difficultyConfigs difficulty).wallDensityPct rand i 0 50 (by omega) (by omega)
      (fun j hj => by simpa using hinv j hj) (by simpa using hval)
    rw [show kOf (difficultyConfigs difficulty).gridSize
        (difficultyConfigs difficulty).wallDensityPct rand 0 = 0 from rfl] at run
    simp only [Nat.zero_add] at run
    show (if (genLoop (difficultyConfigs difficulty).gridSize
          (difficultyConfigs difficulty).wallDensityPct rand 50 0 0).2 ≥ 50 then
        createSimpleMaze (difficultyConfigs difficulty).gridSize
      else (genLoop (difficultyConfigs difficulty).gridSize
          (difficultyConfigs difficulty).wallDensityPct rand 50 0 0).1) = _
    rw [run, if_neg (by simp only [ge_iff_le]; omega)]
  · intro hinv
    have run := genLoop_exhausts (difficultyConfigs difficulty).gridSize
      (difficultyConfigs difficulty).wallDensityPct rand 50 0 (by omega) (by omega)
      (fun j _ h2 => hinv j h2)
    rw [show kOf (difficultyConfigs difficulty).gridSize
        (difficultyConfigs difficulty).wallDensityPct rand 0 = 0 from rfl] at run
    show (if (genLoop (difficultyConfigs difficulty).gridSize
          (difficultyConfigs difficulty).wallDensityPct rand 50 0 0).2 ≥ 50 then
        createSimpleMaze (difficultyConfigs difficulty).gridSize
      else (genLoop (difficultyConfigs difficulty).gridSize
          (difficultyConfigs difficulty).wallDensityPct rand 50 0 0).1) = _
    rw [if_pos (by simp [run])]

theorem C4_witness :
    generateMaze Difficulty.easy randSolvable =
      (attemptIter (difficultyConfigs Difficulty.easy).gridSize
        (difficultyConfigs Difficulty.easy).wallDensityPct randSolvable 0).1 :=
  (C4_amended_fallback_rule Difficulty.easy randSolvable).1 0 (by omega)
    (fun j hj => absurd hj (by omega)) (by decide)

set_option maxHeartbeats 8000000 in
/-- Concrete run of the attempt loop on `randFails49`: the first 49 attempts
are unsolvable, so the loop reaches the 50th attempt (stream index 1372) and
stops there with the attempt counter at 50. -/
theorem genLoopRun_fails49 :
    genLoop 8 20 randFails49 50 0 0 = ((createMazeAttempt 8 20 randFails49 1372).1, 50) := by
  have s0 : genLoop 8 20 randFails49 50 0 0 = genLoop 8 20 randFails49 49 28 1 := by
    have h := genLoop_step_invalid 8 20 randFails49 49 0 0 (by decide) (by decide)
    rwa [show (createMazeAttempt 8 20 randFails49 0).2 = 28 from by decide] at h
  have s1 : genLoop 8 20 randFails49 49 28 1 = genLoop 8 20 randFails49 48 56 2 := by
    have h := genLoop_step_invalid 8 20 randFails49 48 28 1 (by decide) (by decide)
    rwa [show (createMazeAttempt 8 20 randFails49 28).2 = 56 from by decide] at h
  have s2 : genLoop 8 20 randFails49 48 56 2 = genLoop 8 20 randFails49 47 84 3 := by
    have h := genLoop_step_invalid 8 20 randFails49 47 56 2 (by decide) (by decide)
    rwa [show (createMazeAttempt 8 20 randFails49 56).2 = 84 from by decide] at h
  have s3 : genLoop 8 20 randFails49 47 84 3 = genLoop 8 20 randFails49 46 112 4 := by
    have h := genLoop_step_invalid 8 20 randFails49 46 84 3 (by decide) (by decide)
    rwa [show (createMazeAttempt 8 20 randFails49 84).2 = 112 from by decide] at h
  have s4 : genLoop 8 20 randFails49 46 112 4 = genLoop 8 20 randFails49 45 140 5 := by
    have h := genLoop_step_invalid 8 20 randFails49 45 112 4 (by decide) (by decide)
    rwa [show (createMazeAttempt 8 20 randFails49 112).2 = 140 from by decide] at h
  have s5 : genLoop 8 20 randFails49 45 140 5 = genLoop 8 20 randFails49 44 168 6 := by
    have h := genLoop_step_invalid 8 20 randFails49 44 140 5 (by decide) (by decide)
    rwa [show (createMazeAttempt 8 20 randFails49 140).2 = 168 from by decide] at h
  have s6 : genLoop 8 20 randFails49 44 168 6 = genLoop 8 20 randFails49 43 196 7 := by
    have h := genLoop_step_invalid 8 20 randFails49 43 168 6 (by decide) (by decide)
    rwa [show (createMazeAttempt 8 20 randFails49 168).2 = 196 from by decide] at h
  have s7 : genLoop 8 20 randFails49 43 196 7 = genLoop 8 20 randFails49 42 224 8 := by
    have h := genLoop_step_invalid 8 20 randFails49 42 196 7 (by decide) (by decide)
    rwa [show (createMazeAttempt 8 20 randFails49 196).2 = 224 from by decide] at h
  have s8 : genLoop 8 20 randFails49 42 224 8 = genLoop 8 20 randFails49 41 252 9 := by
    have h := genLoop_step_invalid 8 20 randFails49 41 224 8 (by decide) (by decide)
    rwa [show (createMazeAttempt 8 20 randFails49 224).2 = 252 from by decide] at h
  have s9 : genLoop 8 20 randFails49 41 252 9 = genLoop 8 20 randFails49 40 280 10 := by
    have h := genLoop_step_invalid 8 20 randFails49 40 252 9 (by decide) (by decide)
    rwa [show (createMazeAttempt 8 20 randFails49 252).2 = 280 from by decide] at h
  have s10 : genLoop 8 20 randFails49 40 280 10 = genLoop 8 20 randFails49 39 308 11 := by
    have h := genLoop_step_invalid 8 20 randFails49 39 280 10 (by decide) (by decide)
    rwa [show (createMazeAttempt 8 20 randFails49 280).2 = 308 from by decide] at h
  have s11 : genLoop 8 20 randFails49 39 308 11 = genLoop 8 20 randFails49 38 336 12 := by
    have h := genLoop_step_invalid 8 20 randFails49 38 308 11 (by decide) (by decide)
    rwa [show (createMazeAttempt 8 20 randFails49 308).2 = 336 from by decide] at h
  have s12 : genLoop 8 20 randFails49 38 336 12 = genLoop 8 20 randFails49 37 364 13 := by
    have h := genLoop_step_invalid 8 20 randFails49 37 336 12 (by decide) (by decide)
    rwa [show (createMazeAttempt 8 20 randFails49 336).2 = 364 from by decide] at h
  have s13 : genLoop 8 20 randFails49 37 364 13 = genLoop 8 20 randFails49 36 392 14 := by
    have h := genLoop_step_invalid 8 20 randFails49 36 364 13 (by decide) (by decide)
    rwa [show (createMazeAttempt 8 20 randFails49 364).2 = 392 from by decide] at h
  have s14 : genLoop 8 20 randFails49 36 392 14 = genLoop 8 20 randFails49 35 420 15 := by
    have h := genLoop_step_invalid 8 20 randFails49 35 392 14 (by decide) (by decide)
    rwa [show (createMazeAttempt 8 20 randFails49 392).2 = 420 from by decide] at h
  have s15 : genLoop 8 20 randFails49 35 420 15 = genLoop 8 20 randFails49 34 448 16 := by
    have h := genLoop_step_invalid 8 20 randFails49 34 420 15 (by decide) (by decide)
    rwa [show (createMazeAttempt 8 20 randFails49 420).2 = 448 from by decide] at h
  have s16 : genLoop 8 20 randFails49 34 448 16 = genLoop 8 20 randFails49 33 476 17 := by
    have h := genLoop_step_invalid 8 20 randFails49 33 448 16 (by decide) (by decide)
    rwa [show (createMazeAttempt 8 20 randFails49 448).2 = 476 from by decide] at h
  have s17 : genLoop 8 20 randFails49 33 476 17 = genLoop 8 20 randFails49 32 504 18 := by
    have h := genLoop_step_invalid 8 20 randFails49 32 476 17 (by decide) (by decide)
    rwa [show (createMazeAttempt 8 20 randFails49 476).2 = 504 from by decide] at h
  have s18 : genLoop 8 20 randFails49 32 504 18 = genLoop 8 20 randFails49 31 532 19 := by
    have h := genLoop_step_invalid 8 20 randFails49 31 504 18 (by decide) (by decide)
    rwa [show (createMazeAttempt 8 20 randFails49 504).2 = 532 from by decide] at h
  have s19 : genLoop 8 20 randFails49 31 532 19 = genLoop 8 20 randFails49 30 560 20 := by
    have h := genLoop_step_invalid 8 20 randFails49 30 532 19 (by decide) (by decide)
    rwa [show (createMazeAttempt 8 20 randFails49 532).2 = 560 from by decide] at h
  have s20 : genLoop 8 20 randFails49 30 560 20 = genLoop 8 20 randFails49 29 588 21 := by
    have h := genLoop_step_invalid 8 20 randFails49 29 560 20 (by decide) (by decide)
    rwa [show (createMazeAttempt 8 20 randFails49 560).2 = 588 from by decide] at h
  have s21 : genLoop 8 20 randFails49 29 588 21 = genLoop 8 20 randFails49 28 616 22 := by
    have h := genLoop_step_invalid 8 20 randFails49 28 588 21 (by decide) (by decide)
    rwa [show (createMazeAttempt 8 20 randFails49 588).2 = 616 from by decide] at h
  have s22 : genLoop 8 20 randFails49 28 616 22 = genLoop 8 20 randFails49 27 644 23 := by
    have h := genLoop_step_invalid 8 20 randFails49 27 616 22 (by decide) (by decide)
    rwa [show (createMazeAttempt 8 20 randFails49 616).2 = 644 from by decide] at h
  have s23 : genLoop 8 20 randFails49 27 644 23 = genLoop 8 20 randFails49 26 672 24 := by
    have h := genLoop_step_invalid 8 20 randFails49 26 644 23 (by decide) (by decide)
    rwa [show (createMazeAttempt 8 20 randFails49 644).2 = 672 from by decide] at h
  have s24 : genLoop 8 20 randFails49 26 672 24 = genLoop 8 20 randFails49 25 700 25 := by
    have h := genLoop_step_invalid 8 20 randFails49 25 672 24 (by decide) (by decide)
    rwa [show (createMazeAttempt 8 20 randFails49 672).2 = 700 from by decide] at h
  have s25 : genLoop 8 20 randFails49 25 700 25 = genLoop 8 20 randFails49 24 728 26 := by
    have h := genLoop_step_invalid 8 20 randFails49 24 700 25 (by decide) (by decide)
    rwa [show (createMazeAttempt 8 20 randFails49 700).2 = 728 from by decide] at h
  have s26 : genLoop 8 20 randFails49 24 728 26 = genLoop 8 20 randFails49 23 756 27 := by
    have h := genLoop_step_invalid 8 20 randFails49 23 728 26 (by decide) (by decide)
    rwa [show (createMazeAttempt 8 20 randFails49 728).2 = 756 from by decide] at h
  have s27 : genLoop 8 20 randFails49 23 756 27 = genLoop 8 20 randFails49 22 784 28 := by
    have h := genLoop_step_invalid 8 20 randFails49 22 756 27 (by decide) (by decide)
    rwa [show (createMazeAttempt 8 20 randFails49 756).2 = 784 from by decide] at h
  have s28 : genLoop 8 20 randFails49 22 784 28 = genLoop 8 20 randFails49 21 812 29 := by
    have h := genLoop_step_invalid 8 20 randFails49 21 784 28 (by decide) (by decide)
    rwa [show (createMazeAttempt 8 20 randFails49 784).2 = 812 from by decide] at h
  have s29 : genLoop 8 20 randFails49 21 812 29 = genLoop 8 20 randFails49 20 840 30 := by
    have h := genLoop_step_invalid 8 20 randFails49 20 812 29 (by decide) (by decide)
    rwa [show (createMazeAttempt 8 20 randFails49 812).2 = 840 from by decide] at h
  have s30 : genLoop 8 20 randFails49 20 840 30 = genLoop 8 20 randFails49 19 868 31 := by
    have h := genLoop_step_invalid 8 20 randFails49 19 840 30 (by decide) (by decide)
    rwa [show (createMazeAttempt 8 20 randFails49 840).2 = 868 from by decide] at h
  have s31 : genLoop 8 20 randFails49 19 868 31 = genLoop 8 20 randFails49 18 896 32 := by
    have h := genLoop_step_invalid 8 20 randFails49 18 868 31 (by decide) (by decide)
    rwa [show (createMazeAttempt 8 20 randFails49 868).2 = 896 from by decide] at h
  have s32 : genLoop 8 20 randFails49 18 896 32 = genLoop 8 20 randFails49 17 924 33 := by
    have h := genLoop_step_invalid 8 20 randFails49 17 896 32 (by decide) (by decide)
    rwa [show (createMazeAttempt 8 20 randFails49 896).2 = 924 from by decide] at h
  have s33 : genLoop 8 20 randFails49 17 924 33 = genLoop 8 20 randFails49 16 952 34 := by
    have h := genLoop_step_invalid 8 20 randFails49 16 924 33 (by decide) (by decide)
    rwa [show (createMazeAttempt 8 20 randFails49 924).2 = 952 from by decide] at h
  have s34 : genLoop 8 20 randFails49 16 952 34 = genLoop 8 20 randFails49 15 980 35 := by
    have h := genLoop_step_invalid 8 20 randFails49 15 952 34 (by decide) (by decide)
    rwa [show (createMazeAttempt 8 20 randFails49 952).2 = 980 from by decide] at h
  have s35 : genLoop 8 20 randFails49 15 980 35 = genLoop 8 20 randFails49 14 1008 36 := by
    have h := genLoop_step_invalid 8 20 randFails49 14 980 35 (by decide) (by decide)
    rwa [show (createMazeAttempt 8 20 randFails49 980).2 = 1008 from by decide] at h
  have s36 : genLoop 8 20 randFails49 14 1008 36 = genLoop 8 20 randFails49 13 1036 37 := by
    have h := genLoop_step_invalid 8 20 randFails49 13 1008 36 (by decide) (by decide)
    rwa [show (createMazeAttempt 8 20 randFails49 1008).2 = 1036 from by decide] at h
  have s37 : genLoop 8 20 randFails49 13 1036 37 = genLoop 8 20 randFails49 12 1064 38 := by
    have h := genLoop_step_invalid 8 20 randFails49 12 1036 37 (by decide) (by decide)
    rwa [show (createMazeAttempt 8 20 randFails49 1036).2 = 1064 from by decide] at h
  have s38 : genLoop 8 20 randFails49 12 1064 38 = genLoop 8 20 randFails49 11 1092 39 := by
    have h := genLoop_step_invalid 8 20 randFails49 11 1064 38 (by decide) (by decide)
    rwa [show (createMazeAttempt 8 20 randFails49 1064).2 = 1092 from by decide] at h
  have s39 : genLoop 8 20 randFails49 11 1092 39 = genLoop 8 20 randFails49 10 1120 40 := by
    have h := genLoop_step_invalid 8 20 randFails49 10 1092 39 (by decide) (by decide)
    rwa [show (createMazeAttempt 8 20 randFails49 1092).2 = 1120 from by decide] at h
  have s40 : genLoop 8 20 randFails49 10 1120 40 = genLoop 8 20 randFails49 9 1148 41 := by
    have h := genLoop_step_invalid 8 20 randFails49 9 1120 40 (by decide) (by decide)
    rwa [show (createMazeAttempt 8 20 randFails49 1120).2 = 1148 from by decide] at h
  have s41 : genLoop 8 20 randFails49 9 1148 41 = genLoop 8 20 randFails49 8 1176 42 := by
    have h := genLoop_step_invalid 8 20 randFails49 8 1148 41 (by decide) (by decide)
    rwa [show (createMazeAttempt 8 20 randFails49 1148).2 = 1176 from by decide] at h
  have s42 : genLoop 8 20 randFails49 8 1176 42 = genLoop 8 20 randFails49 7 1204 43 := by
    have h := genLoop_step_invalid 8 20 randFails49 7 1176 42 (by decide) (by decide)
    rwa [show (createMazeAttempt 8 20 randFails49 1176).2 = 1204 from by decide] at h
  have s43 : genLoop 8 20 randFails49 7 1204 43 = genLoop 8 20 randFails49 6 1232 44 := by
    have h := genLoop_step_invalid 8 20 randFails49 6 1204 43 (by decide) (by decide)
    rwa [show (createMazeAttempt 8 20 randFails49 1204).2 = 1232 from by decide] at h
  have s44 : genLoop 8 20 randFails49 6 1232 44 = genLoop 8 20 randFails49 5 1260 45 := by
    have h := genLoop_step_invalid 8 20 randFails49 5 1232 44 (by decide) (by decide)
    rwa [show (createMazeAttempt 8 20 randFails49 1232).2 = 1260 from by decide] at h
  have s45 : genLoop 8 20 randFails49 5 1260 45 = genLoop 8 20 randFails49 4 1288 46 := by
    have h := genLoop_step_invalid 8 20 randFails49 4 1260 45 (by decide) (by decide)
    rwa [show (createMazeAttempt 8 20 randFails49 1260).2 = 1288 from by decide] at h
  have s46 : genLoop 8 20 randFails49 4 1288 46 = genLoop 8 20 randFails49 3 1316 47 := by
    have h := genLoop_step_invalid 8 20 randFails49 3 1288 46 (by decide) (by decide)
    rwa [show (createMazeAttempt 8 20 randFails49 1288).2 = 1316 from by decide] at h
  have s47 : genLoop 8 20 randFails49 3 1316 47 = genLoop 8 20 randFails49 2 1344 48 := by
    have h := genLoop_step_invalid 8 20 randFails49 2 1316 47 (by decide) (by decide)
    rwa [show (createMazeAttempt 8 20 randFails49 1316).2 = 1344 from by decide] at h
  have s48 : genLoop 8 20 randFails49 2 1344 48 = genLoop 8 20 randFails49 1 1372 49 := by
    have h := genLoop_step_invalid 8 20 randFails49 1 1344 48 (by decide) (by decide)
    rwa [show (createMazeAttempt 8 20 randFails49 1344).2 = 1372 from by decide] at h
  rw [s0, s1, s2, s3, s4, s5, s6, s7, s8, s9, s10, s11, s12, s13, s14, s15, s16, s17, s18, s19, s20, s21, s22, s23, s24, s25, s26, s27, s28, s29, s30, s31, s32, s33, s34, s35, s36, s37, s38, s39, s40, s41, s42, s43, s44, s45, s46, s47, s48]
  exact genLoop_step_last 8 20 randFails49 0 1372

set_option maxHeartbeats 2000000 in
/-- C4 is false as stated: on the stream `randFails49` the 50th attempt
(at stream index 1372) produces a valid maze, yet `generateMaze` discards it
and returns the trivial fallback `createSimpleMaze 8` instead (the two mazes
differ, e.g. in their key positions). -/
theorem C4_counterexample :
    isValidMaze (createMazeAttempt 8 20 randFails49 1372).1 = true ∧
    genLoop 8 20 randFails49 50 0 0 = ((createMazeAttempt 8 20 randFails49 1372).1, 50) ∧
    generateMaze Difficulty.easy randFails49 = createSimpleMaze 8 ∧
    generateMaze Difficulty.easy randFails49 ≠ (createMazeAttempt 8 20 randFails49 1372).1 := by
  have hval : isValidMaze (createMazeAttempt 8 20 randFails49 1372).1 = true := by decide
  have hgen : generateMaze Difficulty.easy randFails49 = createSimpleMaze 8 := by
    show (if (genLoop 8 20 randFails49 50 0 0).2 ≥ 50 then createSimpleMaze 8
        else (genLoop 8 20 randFails49 50 0 0).1) = createSimpleMaze 8
    rw [genLoopRun_fails49]
    simp
  have hkey : (createMazeAttempt 8 20 randFails49 1372).1.keyPosition = ⟨4, 1⟩ := by decide
  refine ⟨hval, genLoopRun_fails49, hgen, ?_⟩
  intro h
  rw [hgen] at h
  have hk2 : (createSimpleMaze 8).keyPosition = ⟨4, 1⟩ := by rw [h, hkey]
  exact absurd hk2 (by decide)
theorem visGet_eq (v : List (List Bool)) (p : Coord) :
    visGet v p = (v[p.row]?.getD [])[p.col]?.getD false := by
  simp [visGet, List.getD_eq_getElem?_getD]

theorem rowAt_length (n : Nat) (v : List (List Bool)) (h : VisShape n v) (i : Nat)
    (hi : i < n) : (v[i]?.getD []).length = n := by
  obtain ⟨h1, h2⟩ := h
  rw [List.getElem?_eq_getElem (by omega)]
  exact h2 _ (List.getElem_mem (by omega))

theorem visGet_mkFalseGrid (n : Nat) (p : Coord) : visGet (mkFalseGrid n) p = false := by
  rw [visGet_eq]
  unfold mkFalseGrid
  rw [List.getElem?_replicate]
  by_cases hr : p.row < n
  · simp only [if_pos hr, Option.getD_some, List.getElem?_replicate]
    by_cases hc : p.col < n
    · simp [if_pos hc]
    · simp [if_neg hc]
  · simp [if_neg hr]

theorem visShape_mkFalseGrid (n : Nat) : VisShape n (mkFalseGrid n) := by
  refine ⟨by simp [mkFalseGrid], fun row hrow => ?_⟩
  rw [List.eq_of_mem_replicate hrow]
  simp

theorem visSet_oob (n : Nat) (v : List (List Bool)) (p : Coord) (h1 : v.length = n)
    (hr : n ≤ p.row) : visSet v p = v := by
  unfold visSet
  exact List.set_eq_of_length_le (by omega)

theorem visShape_set (n : Nat) (v : List (List Bool)) (p : Coord) (h : VisShape n v) :
    VisShape n (visSet v p) := by
  obtain ⟨h1, h2⟩ := h
  by_cases hr : p.row < n
  · refine ⟨by simp [visSet, h1], fun row hrow => ?_⟩
    rcases List.mem_or_eq_of_mem_set hrow with hmem | heq
    · exact h2 row hmem
    · subst heq
      rw [List.length_set, List.getD_eq_getElem?_getD]
      exact rowAt_length n v ⟨h1, h2⟩ p.row hr
  · rw [visSet_oob n v p h1 (by omega)]
    exact ⟨h1, h2⟩

theorem visGet_oob (n : Nat) (v : List (List Bool)) (p : Coord) (h : VisShape n v)
    (hp : n ≤ p.row ∨ n ≤ p.col) : visGet v p = false := by
  obtain ⟨h1, h2⟩ := h
  rw [visGet_eq]
  rcases hp with hp | hp
  · rw [show v[p.row]? = none from List.getElem?_eq_none (by omega)]
    simp
  · by_cases hr : p.row < n
    · rw [List.getElem?_eq_none (by rw [rowAt_length n v ⟨h1, h2⟩ p.row hr]; omega)]
      simp
    · rw [show v[p.row]? = none from List.getElem?_eq_none (by omega)]
      simp

theorem visGet_set_self (n : Nat) (v : List (List Bool)) (p : Coord) (h : VisShape n v)
    (hr : p.row < n) (hc : p.col < n) : visGet (visSet v p) p = true := by
  obtain ⟨h1, h2⟩ := h
  have hrl : p.row < v.length := by omega
  have hrow : (v.getD p.row []).length = n := by
    rw [List.getD_eq_getElem?_getD]
    exact rowAt_length n v ⟨h1, h2⟩ p.row hr
  rw [visGet_eq]
  unfold visSet
  rw [List.getElem?_set_self hrl]
  simp only [Option.getD_some]
  rw [List.getElem?_set_self (by omega)]
  simp

theorem visGet_set_ne (v : List (List Bool)) (p q : Coord) (hne : q ≠ p) :
    visGet (visSet v p) q = visGet v q := by
  rw [visGet_eq, visGet_eq]
  unfold visSet
  by_cases hr : q.row = p.row
  · have hcne : q.col ≠ p.col := fun hcc => hne (by cases p; cases q; simp_all)
    by_cases hrl : p.row < v.length
    · rw [hr, List.getElem?_set_self hrl]
      simp only [Option.getD_some]
      rw [List.getElem?_set_ne (fun hcc => hcne (by omega)), List.getD_eq_getElem?_getD,
        List.getElem?_eq_getElem hrl]
    · rw [List.set_eq_of_length_le (by omega)]
  · rw [List.getElem?_set_ne (fun hrr => hr (by omega))]

theorem visGet_set_mono (n : Nat) (v : List (List Bool)) (p q : Coord) (h : VisShape n v)
    (hq : visGet v q = true) : visGet (visSet v p) q = true := by
  by_cases he : q = p
  · subst he
    by_cases hr : q.row < n
    · by_cases hc : q.col < n
      · exact visGet_set_self n v q h hr hc
      · rw [visGet_oob n v q h (Or.inr (by omega))] at hq
        exact absurd hq (by simp)
    · rw [visGet_oob n v q h (Or.inl (by omega))] at hq
      exact absurd hq (by simp)
  · rw [visGet_set_ne v p q he]
    exact hq

theorem visGet_inGrid (n : Nat) (v : List (List Bool)) (p : Coord) (h : VisShape n v)
    (hp : visGet v p = true) : p.row < n ∧ p.col < n := by
  by_cases hr : p.row < n
  · by_cases hc : p.col < n
    · exact ⟨hr, hc⟩
    · rw [visGet_oob n v p h (Or.inr (by omega))] at hp
      exact absurd hp (by simp)
  · rw [visGet_oob n v p h (Or.inl (by omega))] at hp
    exact absurd hp (by simp)

theorem countFalse_mkFalseGrid (n : Nat) : countFalse n (mkFalseGrid n) = n * n := by
  unfold countFalse
  rw [Finset.filter_true_of_mem (fun x _ => visGet_mkFalseGrid n ⟨x.1, x.2⟩)]
  simp [Finset.card_product]

theorem countFalse_set (n : Nat) (v : List (List Bool)) (p : Coord) (h : VisShape n v)
    (hr : p.row < n) (hc : p.col < n) (hf : visGet v p = false) :
    countFalse n (visSet v p) + 1 = countFalse n v := by
  unfold countFalse
  have hmem : (p.row, p.col) ∈
      (Finset.range n ×ˢ Finset.range n).filter (fun rc => visGet v ⟨rc.1, rc.2⟩ = false) := by
    simp only [Finset.mem_filter, Finset.mem_product, Finset.mem_range]
    exact ⟨⟨hr, hc⟩, by cases p; exact hf⟩
  have heq : (Finset.range n ×ˢ Finset.range n).filter
        (fun rc => visGet (visSet v p) ⟨rc.1, rc.2⟩ = false) =
      ((Finset.range n ×ˢ Finset.range n).filter
        (fun rc => visGet v ⟨rc.1, rc.2⟩ = false)).erase (p.row, p.col) := by
    ext rc
    rcases rc with ⟨r, c⟩
    simp only [Finset.mem_filter, Finset.mem_erase, Finset.mem_product, Finset.mem_range]
    by_cases he : (⟨r, c⟩ : Coord) = p
    · have hr2 : r = p.row := by cases p; simp_all
      have hc2 : c = p.col := by cases p; simp_all
      subst hr2
      subst hc2
      rw [visGet_set_self n v p h hr hc]
      simp
    · rw [visGet_set_ne v p ⟨r, c⟩ he]
      have hpair : ¬ ((r, c) = (p.row, p.col)) := by
        intro hp2
        apply he
        cases p
        simp_all
      tauto
  rw [heq, Finset.card_erase_of_mem hmem]
  have hpos : 0 < ((Finset.range n ×ˢ Finset.range n).filter
      (fun rc => visGet v ⟨rc.1, rc.2⟩ = false)).card :=
    Finset.card_pos.mpr ⟨_, hmem⟩
  omega

theorem candidatesOf_eq (p : Coord) :
    candidatesOf p = [candFor p .top, candFor p .bottom, candFor p .left, candFor p .right] := rfl

theorem specChainTo_single (g : GridConfig) (hs : inGrid g g.startPosition) :
    SpecChainTo g [g.startPosition] g.startPosition := by
  refine ⟨by simp, rfl, rfl, ?_, by simp⟩
  intro p hp
  rw [List.mem_singleton] at hp
  subst hp
  exact hs

theorem legalStep_inGrid (g : GridConfig) (p q : Coord) (h : LegalStep g p q) : inGrid g q :=
  ⟨h.1, h.2.1⟩

theorem specChainTo_extend (g : GridConfig) (l : List Coord) (p q : Coord)
    (h : SpecChainTo g l p) (hstep : LegalStep g p q) : SpecChainTo g (l ++ [q]) q := by
  obtain ⟨hne, hhead, hlast, hin, hchain⟩ := h
  refine ⟨by simp, ?_, by simp, ?_, ?_⟩
  · rw [List.head?_append_of_ne_nil _ hne]
    exact hhead
  · intro x hx
    rcases List.mem_append.mp hx with hx | hx
    · exact hin x hx
    · rw [List.mem_singleton] at hx
      rw [hx]
      exact legalStep_inGrid g p q hstep
  · rw [List.chain'_append]
    refine ⟨hchain, List.chain'_singleton q, fun x hx y hy => ?_⟩
    rw [hlast] at hx
    simp only [Option.mem_def, Option.some.injEq] at hx
    simp only [List.head?_cons, Option.mem_def, Option.some.injEq] at hy
    subst hx
    subst hy
    exact hstep

theorem reach_of_specChainTo (g : GridConfig) (l : List Coord) (q : Coord)
    (h : SpecChainTo g l q) : Reach g q := by
  induction l using List.reverseRecOn generalizing q with
  | nil => exact absurd rfl h.1
  | append_singleton l' a ih =>
    obtain ⟨hne, hhead, hlast, hin, hchain⟩ := h
    have ha : a = q := by
      rw [List.getLast?_append_cons, List.getLast?_singleton] at hlast
      · simpa using hlast
    subst ha
    rcases List.eq_nil_or_concat l' with hl | ⟨l2, b, hcat⟩
    · subst hl
      have : a = g.startPosition := by simpa using hhead
      subst this
      exact Reach.start
    · rw [List.concat_eq_append] at hcat
      subst hcat
      rw [List.chain'_append] at hchain
      obtain ⟨hc1, _, hrel⟩ := hchain
      have hb : (l2 ++ [b]).getLast? = some b := by simp
      have hstep : LegalStep g b a := hrel b (by simpa using hb) a (by simp)
      have hprev : SpecChainTo g (l2 ++ [b]) b := by
        refine ⟨by simp, ?_, by simp, ?_, hc1⟩
        · rw [List.head?_append_of_ne_nil _ (by simp)] at hhead
          exact hhead
        · intro x hx
          exact hin x (by simp [List.mem_append] at hx ⊢; tauto)
      exact Reach.step (ih b hprev) hstep

theorem specChainTo_of_reach (g : GridConfig) (q : Coord) (hs : inGrid g g.startPosition)
    (h : Reach g q) : ∃ l, SpecChainTo g l q := by
  induction h with
  | start => exact ⟨[g.startPosition], specChainTo_single g hs⟩
  | step hr hstep ih =>
    obtain ⟨l, hl⟩ := ih
    exact ⟨l ++ [_], specChainTo_extend g l _ _ hl hstep⟩

theorem reach_visited (g : GridConfig) (v : List (List Bool))
    (hstart : visGet v g.startPosition = true)
    (hclosed : ∀ p, visGet v p = true → ∀ m, LegalStep g p m → visGet v m = true) :
    ∀ q, Reach g q → visGet v q = true := by
  intro q h
  induction h with
  | start => exact hstart
  | step hr hstep ih => exact hclosed _ ih _ hstep

theorem stepSide_mem (p q : Coord) :
    stepSide p q = Side.top ∨ stepSide p q = Side.bottom ∨ stepSide p q = Side.left ∨
      stepSide p q = Side.right := by
  unfold stepSide
  split_ifs <;> simp

theorem legalStep_side_top (g : GridConfig) (p q : Coord) (h : LegalStep g p q)
    (hs : stepSide p q = Side.top) :
    p.row = q.row + 1 ∧ p.col = q.col ∧
    sideGet (tileConn g p) Side.top = true ∧ sideGet (tileConn g q) Side.bottom = true := by
  obtain ⟨hr, hc, hd⟩ := h
  unfold stepSide at hs
  rcases hd with ⟨h1, h2, h3, h4⟩ | ⟨h1, h2, h3, h4⟩ | ⟨h1, h2, h3, h4⟩ | ⟨h1, h2, h3, h4⟩
  · exact ⟨h1, h2, h3, h4⟩
  · rw [if_neg (by omega), if_pos h1] at hs
    exact absurd hs (by decide)
  · rw [if_neg (by omega), if_neg (by omega), if_pos h1] at hs
    exact absurd hs (by decide)
  · rw [if_neg (by omega), if_neg (by omega), if_neg (by omega)] at hs
    exact absurd hs (by decide)

theorem legalStep_side_bottom (g : GridConfig) (p q : Coord) (h : LegalStep g p q)
    (hs : stepSide p q = Side.bottom) :
    q.row = p.row + 1 ∧ p.col = q.col ∧
    sideGet (tileConn g p) Side.bottom = true ∧ sideGet (tileConn g q) Side.top = true := by
  obtain ⟨hr, hc, hd⟩ := h
  unfold stepSide at hs
  rcases hd with ⟨h1, h2, h3, h4⟩ | ⟨h1, h2, h3, h4⟩ | ⟨h1, h2, h3, h4⟩ | ⟨h1, h2, h3, h4⟩
  · rw [if_pos h1] at hs
    exact absurd hs (by decide)
  · exact ⟨h1, h2, h3, h4⟩
  · rw [if_neg (by omega), if_neg (by omega), if_pos h1] at hs
    exact absurd hs (by decide)
  · rw [if_neg (by omega), if_neg (by omega), if_neg (by omega)] at hs
    exact absurd hs (by decide)

theorem legalStep_side_left (g : GridConfig) (p q : Coord) (h : LegalStep g p q)
    (hs : stepSide p q = Side.left) :
    p.col = q.col + 1 ∧ p.row = q.row ∧
    sideGet (tileConn g p) Side.left = true ∧ sideGet (tileConn g q) Side.right = true := by
  obtain ⟨hr, hc, hd⟩ := h
  unfold stepSide at hs
  rcases hd with ⟨h1, h2, h3, h4⟩ | ⟨h1, h2, h3, h4⟩ | ⟨h1, h2, h3, h4⟩ | ⟨h1, h2, h3, h4⟩
  · rw [if_pos h1] at hs
    exact absurd hs (by decide)
  · rw [if_neg (by omega), if_pos h1] at hs
    exact absurd hs (by decide)
  · exact ⟨h1, h2, h3, h4⟩
  · rw [if_neg (by omega), if_neg (by omega), if_neg (by omega)] at hs
    exact absurd hs (by decide)

theorem legalStep_side_right (g : GridConfig) (p q : Coord) (h : LegalStep g p q)
    (hs : stepSide p q = Side.right) :
    q.col = p.col + 1 ∧ p.row = q.row ∧
    sideGet (tileConn g p) Side.right = true ∧ sideGet (tileConn g q) Side.left = true := by
  obtain ⟨hr, hc, hd⟩ := h
  unfold stepSide at hs
  rcases hd with ⟨h1, h2, h3, h4⟩ | ⟨h1, h2, h3, h4⟩ | ⟨h1, h2, h3, h4⟩ | ⟨h1, h2, h3, h4⟩
  · rw [if_pos h1] at hs
    exact absurd hs (by decide)
  · rw [if_neg (by omega), if_pos h1] at hs
    exact absurd hs (by decide)
  · rw [if_neg (by omega), if_neg (by omega), if_pos h1] at hs
    exact absurd hs (by decide)
  · exact ⟨h1, h2, h3, h4⟩


theorem coord_ext (p q : Coord) (h1 : p.row = q.row) (h2 : p.col = q.col) : p = q := by
  cases p
  cases q
  simp_all


theorem stepNeighbor_spec_top (g : GridConfig) (cur : Coord) (path : List Coord)
    (acc : List (List Bool) × List PathEntry)
    (hshape : VisShape g.gridSize acc.1)
    (hchain : SpecChainTo g path cur) (hnodup : path.Nodup)
    (hpvis : ∀ p ∈ path, visGet acc.1 p = true)
    (hentries : ∀ e ∈ acc.2, EntryOk g acc.1 e) :
    StepPost g cur path acc
      (stepNeighbor g (tileConn g cur) path acc (candFor cur Side.top)) Side.top := by
  rw [show candFor cur Side.top = ((cur.row : Int) - 1, (cur.col : Int), Side.top, Side.bottom) from rfl]
  show StepPost _ _ _ _ (stepNeighbor _ _ _ _ _) _
  simp only [stepNeighbor]
  split_ifs with h1 h2 h3
  · -- skipped: out of bounds or already visited
    refine ⟨hshape, fun p hp => hp, rfl, fun e he => he, hentries,
      fun e he => Or.inl he, fun p hp => Or.inl hp, ?_⟩
    intro q hq hqs
    obtain ⟨hg1, hg2, hcur, hnb⟩ := legalStep_side_top g cur q hq hqs
    obtain ⟨hqr, hqc, _⟩ := hq
    rcases h1 with hx | hx | hx | hx | hx
    · omega
    · omega
    · omega
    · omega
    · have hqe : (⟨((cur.row : Int) - 1).toNat, ((cur.col : Int)).toNat⟩ : Coord) = q :=
        coord_ext _ _ (show (((cur.row : Int) - 1)).toNat = q.row by omega)
          (show (((cur.col : Int))).toNat = q.col by omega)
      rwa [hqe] at hx
  · -- skipped: the current tile has no exit on this side
    refine ⟨hshape, fun p hp => hp, rfl, fun e he => he, hentries,
      fun e he => Or.inl he, fun p hp => Or.inl hp, ?_⟩
    intro q hq hqs
    obtain ⟨hg1, hg2, hcur, hnb⟩ := legalStep_side_top g cur q hq hqs
    rw [hcur] at h2
    exact absurd h2 (by decide)
  · -- the neighbor answers back: mark visited and enqueue
    push_neg at h1
    obtain ⟨hb1, hb2, hb3, hb4, hb5⟩ := h1
    have hb5f : visGet acc.1 ⟨((cur.row : Int) - 1).toNat, ((cur.col : Int)).toNat⟩ = false :=
      Bool.eq_false_iff.mpr hb5
    have hcur : sideGet (tileConn g cur) Side.top = true := by
      revert h2
      cases sideGet (tileConn g cur) Side.top <;> simp
    have hnb : sideGet (tileConn g (⟨((cur.row : Int) - 1).toNat, ((cur.col : Int)).toNat⟩ : Coord)) Side.bottom = true := h3
    have hnprow : ((⟨((cur.row : Int) - 1).toNat, ((cur.col : Int)).toNat⟩ : Coord)).row < g.gridSize :=
      show (((cur.row : Int) - 1)).toNat < g.gridSize by omega
    have hnpcol : ((⟨((cur.row : Int) - 1).toNat, ((cur.col : Int)).toNat⟩ : Coord)).col < g.gridSize :=
      show (((cur.col : Int))).toNat < g.gridSize by omega
    have hlegal : LegalStep g cur ⟨((cur.row : Int) - 1).toNat, ((cur.col : Int)).toNat⟩ := by
      refine ⟨hnprow, hnpcol, ?_⟩
      exact Or.inl ⟨show cur.row = (((cur.row : Int) - 1)).toNat + 1 by omega, show cur.col = (((cur.col : Int))).toNat by omega, hcur, hnb⟩
    have hnotpath : (⟨((cur.row : Int) - 1).toNat, ((cur.col : Int)).toNat⟩ : Coord) ∉ path := by
      intro hmem
      rw [hpvis _ hmem] at hb5f
      exact absurd hb5f (by simp)
    refine ⟨visShape_set _ _ _ hshape,
      fun p hp => visGet_set_mono _ _ _ _ hshape hp, ?_, ?_, ?_, ?_, ?_, ?_⟩
    · -- counting: one fewer unvisited cell, one more queue entry
      simp only [List.length_append, List.length_singleton]
      have := countFalse_set g.gridSize acc.1 ⟨((cur.row : Int) - 1).toNat, ((cur.col : Int)).toNat⟩ hshape
        hnprow hnpcol hb5f
      omega
    · exact fun e he => List.mem_append_left _ he
    · intro e he
      rcases List.mem_append.mp he with he | he
      · obtain ⟨hech, hend, hevis⟩ := hentries e he
        exact ⟨hech, hend, fun p hp => visGet_set_mono _ _ _ _ hshape (hevis p hp)⟩
      · rw [List.mem_singleton] at he
        subst he
        refine ⟨specChainTo_extend g path cur _ hchain hlegal, ?_, ?_⟩
        · simp only [List.nodup_append]
          exact ⟨hnodup, List.nodup_singleton _, by
            intro a ha hb
            rw [List.mem_singleton] at hb
            subst hb
            exact hnotpath ha⟩
        · intro p hp
          rcases List.mem_append.mp hp with hp | hp
          · exact visGet_set_mono _ _ _ _ hshape (hpvis p hp)
          · rw [List.mem_singleton] at hp
            subst hp
            exact visGet_set_self _ _ _ hshape hnprow hnpcol
    · intro e he
      rcases List.mem_append.mp he with he | he
      · exact Or.inl he
      · rw [List.mem_singleton] at he
        exact Or.inr ⟨_, he, hlegal⟩
    · intro p hp
      by_cases hpe : p = (⟨((cur.row : Int) - 1).toNat, ((cur.col : Int)).toNat⟩ : Coord)
      · subst hpe
        exact Or.inr ⟨_, List.mem_append_right _ (List.mem_singleton_self _), rfl⟩
      · rw [visGet_set_ne _ _ _ hpe] at hp
        exact Or.inl hp
    · intro q hq hqs
      obtain ⟨hg1, hg2, _, _⟩ := legalStep_side_top g cur q hq hqs
      obtain ⟨hqr, hqc, _⟩ := hq
      have hqe : (⟨((cur.row : Int) - 1).toNat, ((cur.col : Int)).toNat⟩ : Coord) = q :=
        coord_ext _ _ (show (((cur.row : Int) - 1)).toNat = q.row by omega)
          (show (((cur.col : Int))).toNat = q.col by omega)
      rw [← hqe]
      exact visGet_set_self _ _ _ hshape hnprow hnpcol
  · -- skipped: the neighbor has no answering exit
    refine ⟨hshape, fun p hp => hp, rfl, fun e he => he, hentries,
      fun e he => Or.inl he, fun p hp => Or.inl hp, ?_⟩
    intro q hq hqs
    obtain ⟨hg1, hg2, hcur, hnb⟩ := legalStep_side_top g cur q hq hqs
    obtain ⟨hqr, hqc, _⟩ := hq
    push_neg at h1
    obtain ⟨hb1, hb2, hb3, hb4, hb5⟩ := h1
    have hqe : (⟨((cur.row : Int) - 1).toNat, ((cur.col : Int)).toNat⟩ : Coord) = q :=
      coord_ext _ _ (show (((cur.row : Int) - 1)).toNat = q.row by omega)
        (show (((cur.col : Int))).toNat = q.col by omega)
    rw [hqe] at h3
    exact absurd hnb h3

theorem stepNeighbor_spec_bottom (g : GridConfig) (cur : Coord) (path : List Coord)
    (acc : List (List Bool) × List PathEntry)
    (hshape : VisShape g.gridSize acc.1)
    (hchain : SpecChainTo g path cur) (hnodup : path.Nodup)
    (hpvis : ∀ p ∈ path, visGet acc.1 p = true)
    (hentries : ∀ e ∈ acc.2, EntryOk g acc.1 e) :
    StepPost g cur path acc
      (stepNeighbor g (tileConn g cur) path acc (candFor cur Side.bottom)) Side.bottom := by
  rw [show candFor cur Side.bottom = ((cur.row : Int) + 1, (cur.col : Int), Side.bottom, Side.top) from rfl]
  show StepPost _ _ _ _ (stepNeighbor _ _ _ _ _) _
  simp only [stepNeighbor]
  split_ifs with h1 h2 h3
  · -- skipped: out of bounds or already visited
    refine ⟨hshape, fun p hp => hp, rfl, fun e he => he, hentries,
      fun e he => Or.inl he, fun p hp => Or.inl hp, ?_⟩
    intro q hq hqs
    obtain ⟨hg1, hg2, hcur, hnb⟩ := legalStep_side_bottom g cur q hq hqs
    obtain ⟨hqr, hqc, _⟩ := hq
    rcases h1 with hx | hx | hx | hx | hx
    · omega
    · omega
    · omega
    · omega
    · have hqe : (⟨((cur.row : Int) + 1).toNat, ((cur.col : Int)).toNat⟩ : Coord) = q :=
        coord_ext _ _ (show (((cur.row : Int) + 1)).toNat = q.row by omega)
          (show (((cur.col : Int))).toNat = q.col by omega)
      rwa [hqe] at hx
  · -- skipped: the current tile has no exit on this side
    refine ⟨hshape, fun p hp => hp, rfl, fun e he => he, hentries,
      fun e he => Or.inl he, fun p hp => Or.inl hp, ?_⟩
    intro q hq hqs
    obtain ⟨hg1, hg2, hcur, hnb⟩ := legalStep_side_bottom g cur q hq hqs
    rw [hcur] at h2
    exact absurd h2 (by decide)
  · -- the neighbor answers back: mark visited and enqueue
    push_neg at h1
    obtain ⟨hb1, hb2, hb3, hb4, hb5⟩ := h1
    have hb5f : visGet acc.1 ⟨((cur.row : Int) + 1).toNat, ((cur.col : Int)).toNat⟩ = false :=
      Bool.eq_false_iff.mpr hb5
    have hcur : sideGet (tileConn g cur) Side.bottom = true := by
      revert h2
      cases sideGet (tileConn g cur) Side.bottom <;> simp
    have hnb : sideGet (tileConn g (⟨((cur.row : Int) + 1).toNat, ((cur.col : Int)).toNat⟩ : Coord)) Side.top = true := h3
    have hnprow : ((⟨((cur.row : Int) + 1).toNat, ((cur.col : Int)).toNat⟩ : Coord)).row < g.gridSize :=
      show (((cur.row : Int) + 1)).toNat < g.gridSize by omega
    have hnpcol : ((⟨((cur.row : Int) + 1).toNat, ((cur.col : Int)).toNat⟩ : Coord)).col < g.gridSize :=
      show (((cur.col : Int))).toNat < g.gridSize by omega
    have hlegal : LegalStep g cur ⟨((cur.row : Int) + 1).toNat, ((cur.col : Int)).toNat⟩ := by
      refine ⟨hnprow, hnpcol, ?_⟩
      exact Or.inr (Or.inl ⟨show (((cur.row : Int) + 1)).toNat = cur.row + 1 by omega, show cur.col = (((cur.col : Int))).toNat by omega, hcur, hnb⟩)
    have hnotpath : (⟨((cur.row : Int) + 1).toNat, ((cur.col : Int)).toNat⟩ : Coord) ∉ path := by
      intro hmem
      rw [hpvis _ hmem] at hb5f
      exact absurd hb5f (by simp)
    refine ⟨visShape_set _ _ _ hshape,
      fun p hp => visGet_set_mono _ _ _ _ hshape hp, ?_, ?_, ?_, ?_, ?_, ?_⟩
    · -- counting: one fewer unvisited cell, one more queue entry
      simp only [List.length_append, List.length_singleton]
      have := countFalse_set g.gridSize acc.1 ⟨((cur.row : Int) + 1).toNat, ((cur.col : Int)).toNat⟩ hshape
        hnprow hnpcol hb5f
      omega
    · exact fun e he => List.mem_append_left _ he
    · intro e he
      rcases List.mem_append.mp he with he | he
      · obtain ⟨hech, hend, hevis⟩ := hentries e he
        exact ⟨hech, hend, fun p hp => visGet_set_mono _ _ _ _ hshape (hevis p hp)⟩
      · rw [List.mem_singleton] at he
        subst he
        refine ⟨specChainTo_extend g path cur _ hchain hlegal, ?_, ?_⟩
        · simp only [List.nodup_append]
          exact ⟨hnodup, List.nodup_singleton _, by
            intro a ha hb
            rw [List.mem_singleton] at hb
            subst hb
            exact hnotpath ha⟩
        · intro p hp
          rcases List.mem_append.mp hp with hp | hp
          · exact visGet_set_mono _ _ _ _ hshape (hpvis p hp)
          · rw [List.mem_singleton] at hp
            subst hp
            exact visGet_set_self _ _ _ hshape hnprow hnpcol
    · intro e he
      rcases List.mem_append.mp he with he | he
      · exact Or.inl he
      · rw [List.mem_singleton] at he
        exact Or.inr ⟨_, he, hlegal⟩
    · intro p hp
      by_cases hpe : p = (⟨((cur.row : Int) + 1).toNat, ((cur.col : Int)).toNat⟩ : Coord)
      · subst hpe
        exact Or.inr ⟨_, List.mem_append_right _ (List.mem_singleton_self _), rfl⟩
      · rw [visGet_set_ne _ _ _ hpe] at hp
        exact Or.inl hp
    · intro q hq hqs
      obtain ⟨hg1, hg2, _, _⟩ := legalStep_side_bottom g cur q hq hqs
      obtain ⟨hqr, hqc, _⟩ := hq
      have hqe : (⟨((cur.row : Int) + 1).toNat, ((cur.col : Int)).toNat⟩ : Coord) = q :=
        coord_ext _ _ (show (((cur.row : Int) + 1)).toNat = q.row by omega)
          (show (((cur.col : Int))).toNat = q.col by omega)
      rw [← hqe]
      exact visGet_set_self _ _ _ hshape hnprow hnpcol
  · -- skipped: the neighbor has no answering exit
    refine ⟨hshape, fun p hp => hp, rfl, fun e he => he, hentries,
      fun e he => Or.inl he, fun p hp => Or.inl hp, ?_⟩
    intro q hq hqs
    obtain ⟨hg1, hg2, hcur, hnb⟩ := legalStep_side_bottom g cur q hq hqs
    obtain ⟨hqr, hqc, _⟩ := hq
    push_neg at h1
    obtain ⟨hb1, hb2, hb3, hb4, hb5⟩ := h1
    have hqe : (⟨((cur.row : Int) + 1).toNat, ((cur.col : Int)).toNat⟩ : Coord) = q :=
      coord_ext _ _ (show (((cur.row : Int) + 1)).toNat = q.row by omega)
        (show (((cur.col : Int))).toNat = q.col by omega)
    rw [hqe] at h3
    exact absurd hnb h3

theorem stepNeighbor_spec_left (g : GridConfig) (cur : Coord) (path : List Coord)
    (acc : List (List Bool) × List PathEntry)
    (hshape : VisShape g.gridSize acc.1)
    (hchain : SpecChainTo g path cur) (hnodup : path.Nodup)
    (hpvis : ∀ p ∈ path, visGet acc.1 p = true)
    (hentries : ∀ e ∈ acc.2, EntryOk g acc.1 e) :
    StepPost g cur path acc
      (stepNeighbor g (tileConn g cur) path acc (candFor cur Side.left)) Side.left := by
  rw [show candFor cur Side.left = ((cur.row : Int), (cur.col : Int) - 1, Side.left, Side.right) from rfl]
  show StepPost _ _ _ _ (stepNeighbor _ _ _ _ _) _
  simp only [stepNeighbor]
  split_ifs with h1 h2 h3
  · -- skipped: out of bounds or already visited
    refine ⟨hshape, fun p hp => hp, rfl, fun e he => he, hentries,
      fun e he => Or.inl he, fun p hp => Or.inl hp, ?_⟩
    intro q hq hqs
    obtain ⟨hg1, hg2, hcur, hnb⟩ := legalStep_side_left g cur q hq hqs
    obtain ⟨hqr, hqc, _⟩ := hq
    rcases h1 with hx | hx | hx | hx | hx
    · omega
    · omega
    · omega
    · omega
    · have hqe : (⟨((cur.row : Int)).toNat, ((cur.col : Int) - 1).toNat⟩ : Coord) = q :=
        coord_ext _ _ (show (((cur.row : Int))).toNat = q.row by omega)
          (show (((cur.col : Int) - 1)).toNat = q.col by omega)
      rwa [hqe] at hx
  · -- skipped: the current tile has no exit on this side
    refine ⟨hshape, fun p hp => hp, rfl, fun e he => he, hentries,
      fun e he => Or.inl he, fun p hp => Or.inl hp, ?_⟩
    intro q hq hqs
    obtain ⟨hg1, hg2, hcur, hnb⟩ := legalStep_side_left g cur q hq hqs
    rw [hcur] at h2
    exact absurd h2 (by decide)
  · -- the neighbor answers back: mark visited and enqueue
    push_neg at h1
    obtain ⟨hb1, hb2, hb3, hb4, hb5⟩ := h1
    have hb5f : visGet acc.1 ⟨((cur.row : Int)).toNat, ((cur.col : Int) - 1).toNat⟩ = false :=
      Bool.eq_false_iff.mpr hb5
    have hcur : sideGet (tileConn g cur) Side.left = true := by
      revert h2
      cases sideGet (tileConn g cur) Side.left <;> simp
    have hnb : sideGet (tileConn g (⟨((cur.row : Int)).toNat, ((cur.col : Int) - 1).toNat⟩ : Coord)) Side.right = true := h3
    have hnprow : ((⟨((cur.row : Int)).toNat, ((cur.col : Int) - 1).toNat⟩ : Coord)).row < g.gridSize :=
      show (((cur.row : Int))).toNat < g.gridSize by omega
    have hnpcol : ((⟨((cur.row : Int)).toNat, ((cur.col : Int) - 1).toNat⟩ : Coord)).col < g.gridSize :=
      show (((cur.col : Int) - 1)).toNat < g.gridSize by omega
    have hlegal : LegalStep g cur ⟨((cur.row : Int)).toNat, ((cur.col : Int) - 1).toNat⟩ := by
      refine ⟨hnprow, hnpcol, ?_⟩
      exact Or.inr (Or.inr (Or.inl ⟨show cur.col = (((cur.col : Int) - 1)).toNat + 1 by omega, show cur.row = (((cur.row : Int))).toNat by omega, hcur, hnb⟩))
    have hnotpath : (⟨((cur.row : Int)).toNat, ((cur.col : Int) - 1).toNat⟩ : Coord) ∉ path := by
      intro hmem
      rw [hpvis _ hmem] at hb5f
      exact absurd hb5f (by simp)
    refine ⟨visShape_set _ _ _ hshape,
      fun p hp => visGet_set_mono _ _ _ _ hshape hp, ?_, ?_, ?_, ?_, ?_, ?_⟩
    · -- counting: one fewer unvisited cell, one more queue entry
      simp only [List.length_append, List.length_singleton]
      have := countFalse_set g.gridSize acc.1 ⟨((cur.row : Int)).toNat, ((cur.col : Int) - 1).toNat⟩ hshape
        hnprow hnpcol hb5f
      omega
    · exact fun e he => List.mem_append_left _ he
    · intro e he
      rcases List.mem_append.mp he with he | he
      · obtain ⟨hech, hend, hevis⟩ := hentries e he
        exact ⟨hech, hend, fun p hp => visGet_set_mono _ _ _ _ hshape (hevis p hp)⟩
      · rw [List.mem_singleton] at he
        subst he
        refine ⟨specChainTo_extend g path cur _ hchain hlegal, ?_, ?_⟩
        · simp only [List.nodup_append]
          exact ⟨hnodup, List.nodup_singleton _, by
            intro a ha hb
            rw [List.mem_singleton] at hb
            subst hb
            exact hnotpath ha⟩
        · intro p hp
          rcases List.mem_append.mp hp with hp | hp
          · exact visGet_set_mono _ _ _ _ hshape (hpvis p hp)
          · rw [List.mem_singleton] at hp
            subst hp
            exact visGet_set_self _ _ _ hshape hnprow hnpcol
    · intro e he
      rcases List.mem_append.mp he with he | he
      · exact Or.inl he
      · rw [List.mem_singleton] at he
        exact Or.inr ⟨_, he, hlegal⟩
    · intro p hp
      by_cases hpe : p = (⟨((cur.row : Int)).toNat, ((cur.col : Int) - 1).toNat⟩ : Coord)
      · subst hpe
        exact Or.inr ⟨_, List.mem_append_right _ (List.mem_singleton_self _), rfl⟩
      · rw [visGet_set_ne _ _ _ hpe] at hp
        exact Or.inl hp
    · intro q hq hqs
      obtain ⟨hg1, hg2, _, _⟩ := legalStep_side_left g cur q hq hqs
      obtain ⟨hqr, hqc, _⟩ := hq
      have hqe : (⟨((cur.row : Int)).toNat, ((cur.col : Int) - 1).toNat⟩ : Coord) = q :=
        coord_ext _ _ (show (((cur.row : Int))).toNat = q.row by omega)
          (show (((cur.col : Int) - 1)).toNat = q.col by omega)
      rw [← hqe]
      exact visGet_set_self _ _ _ hshape hnprow hnpcol
  · -- skipped: the neighbor has no answering exit
    refine ⟨hshape, fun p hp => hp, rfl, fun e he => he, hentries,
      fun e he => Or.inl he, fun p hp => Or.inl hp, ?_⟩
    intro q hq hqs
    obtain ⟨hg1, hg2, hcur, hnb⟩ := legalStep_side_left g cur q hq hqs
    obtain ⟨hqr, hqc, _⟩ := hq
    push_neg at h1
    obtain ⟨hb1, hb2, hb3, hb4, hb5⟩ := h1
    have hqe : (⟨((cur.row : Int)).toNat, ((cur.col : Int) - 1).toNat⟩ : Coord) = q :=
      coord_ext _ _ (show (((cur.row : Int))).toNat = q.row by omega)
        (show (((cur.col : Int) - 1)).toNat = q.col by omega)
    rw [hqe] at h3
    exact absurd hnb h3

theorem stepNeighbor_spec_right (g : GridConfig) (cur : Coord) (path : List Coord)
    (acc : List (List Bool) × List PathEntry)
    (hshape : VisShape g.gridSize acc.1)
    (hchain : SpecChainTo g path cur) (hnodup : path.Nodup)
    (hpvis : ∀ p ∈ path, visGet acc.1 p = true)
    (hentries : ∀ e ∈ acc.2, EntryOk g acc.1 e) :
    StepPost g cur path acc
      (stepNeighbor g (tileConn g cur) path acc (candFor cur Side.right)) Side.right := by
  rw [show candFor cur Side.right = ((cur.row : Int), (cur.col : Int) + 1, Side.right, Side.left) from rfl]
  show StepPost _ _ _ _ (stepNeighbor _ _ _ _ _) _
  simp only [stepNeighbor]
  split_ifs with h1 h2 h3
  · -- skipped: out of bounds or already visited
    refine ⟨hshape, fun p hp => hp, rfl, fun e he => he, hentries,
      fun e he => Or.inl he, fun p hp => Or.inl hp, ?_⟩
    intro q hq hqs
    obtain ⟨hg1, hg2, hcur, hnb⟩ := legalStep_side_right g cur q hq hqs
    obtain ⟨hqr, hqc, _⟩ := hq
    rcases h1 with hx | hx | hx | hx | hx
    · omega
    · omega
    · omega
    · omega
    · have hqe : (⟨((cur.row : Int)).toNat, ((cur.col : Int) + 1).toNat⟩ : Coord) = q :=
        coord_ext _ _ (show (((cur.row : Int))).toNat = q.row by omega)
          (show (((cur.col : Int) + 1)).toNat = q.col by omega)
      rwa [hqe] at hx
  · -- skipped: the current tile has no exit on this side
    refine ⟨hshape, fun p hp => hp, rfl, fun e he => he, hentries,
      fun e he => Or.inl he, fun p hp => Or.inl hp, ?_⟩
    intro q hq hqs
    obtain ⟨hg1, hg2, hcur, hnb⟩ := legalStep_side_right g cur q hq hqs
    rw [hcur] at h2
    exact absurd h2 (by decide)
  · -- the neighbor answers back: mark visited and enqueue
    push_neg at h1
    obtain ⟨hb1, hb2, hb3, hb4, hb5⟩ := h1
    have hb5f : visGet acc.1 ⟨((cur.row : Int)).toNat, ((cur.col : Int) + 1).toNat⟩ = false :=
      Bool.eq_false_iff.mpr hb5
    have hcur : sideGet (tileConn g cur) Side.right = true := by
      revert h2
      cases sideGet (tileConn g cur) Side.right <;> simp
    have hnb : sideGet (tileConn g (⟨((cur.row : Int)).toNat, ((cur.col : Int) + 1).toNat⟩ : Coord)) Side.left = true := h3
    have hnprow : ((⟨((cur.row : Int)).toNat, ((cur.col : Int) + 1).toNat⟩ : Coord)).row < g.gridSize :=
      show (((cur.row : Int))).toNat < g.gridSize by omega
    have hnpcol : ((⟨((cur.row : Int)).toNat, ((cur.col : Int) + 1).toNat⟩ : Coord)).col < g.gridSize :=
      show (((cur.col : Int) + 1)).toNat < g.gridSize by omega
    have hlegal : LegalStep g cur ⟨((cur.row : Int)).toNat, ((cur.col : Int) + 1).toNat⟩ := by
      refine ⟨hnprow, hnpcol, ?_⟩
      exact Or.inr (Or.inr (Or.inr ⟨show (((cur.col : Int) + 1)).toNat = cur.col + 1 by omega, show cur.row = (((cur.row : Int))).toNat by omega, hcur, hnb⟩))
    have hnotpath : (⟨((cur.row : Int)).toNat, ((cur.col : Int) + 1).toNat⟩ : Coord) ∉ path := by
      intro hmem
      rw [hpvis _ hmem] at hb5f
      exact absurd hb5f (by simp)
    refine ⟨visShape_set _ _ _ hshape,
      fun p hp => visGet_set_mono _ _ _ _ hshape hp, ?_, ?_, ?_, ?_, ?_, ?_⟩
    · -- counting: one fewer unvisited cell, one more queue entry
      simp only [List.length_append, List.length_singleton]
      have := countFalse_set g.gridSize acc.1 ⟨((cur.row : Int)).toNat, ((cur.col : Int) + 1).toNat⟩ hshape
        hnprow hnpcol hb5f
      omega
    · exact fun e he => List.mem_append_left _ he
    · intro e he
      rcases List.mem_append.mp he with he | he
      · obtain ⟨hech, hend, hevis⟩ := hentries e he
        exact ⟨hech, hend, fun p hp => visGet_set_mono _ _ _ _ hshape (hevis p hp)⟩
      · rw [List.mem_singleton] at he
        subst he
        refine ⟨specChainTo_extend g path cur _ hchain hlegal, ?_, ?_⟩
        · simp only [List.nodup_append]
          exact ⟨hnodup, List.nodup_singleton _, by
            intro a ha hb
            rw [List.mem_singleton] at hb
            subst hb
            exact hnotpath ha⟩
        · intro p hp
          rcases List.mem_append.mp hp with hp | hp
          · exact visGet_set_mono _ _ _ _ hshape (hpvis p hp)
          · rw [List.mem_singleton] at hp
            subst hp
            exact visGet_set_self _ _ _ hshape hnprow hnpcol
    · intro e he
      rcases List.mem_append.mp he with he | he
      · exact Or.inl he
      · rw [List.mem_singleton] at he
        exact Or.inr ⟨_, he, hlegal⟩
    · intro p hp
      by_cases hpe : p = (⟨((cur.row : Int)).toNat, ((cur.col : Int) + 1).toNat⟩ : Coord)
      · subst hpe
        exact Or.inr ⟨_, List.mem_append_right _ (List.mem_singleton_self _), rfl⟩
      · rw [visGet_set_ne _ _ _ hpe] at hp
        exact Or.inl hp
    · intro q hq hqs
      obtain ⟨hg1, hg2, _, _⟩ := legalStep_side_right g cur q hq hqs
      obtain ⟨hqr, hqc, _⟩ := hq
      have hqe : (⟨((cur.row : Int)).toNat, ((cur.col : Int) + 1).toNat⟩ : Coord) = q :=
        coord_ext _ _ (show (((cur.row : Int))).toNat = q.row by omega)
          (show (((cur.col : Int) + 1)).toNat = q.col by omega)
      rw [← hqe]
      exact visGet_set_self _ _ _ hshape hnprow hnpcol
  · -- skipped: the neighbor has no answering exit
    refine ⟨hshape, fun p hp => hp, rfl, fun e he => he, hentries,
      fun e he => Or.inl he, fun p hp => Or.inl hp, ?_⟩
    intro q hq hqs
    obtain ⟨hg1, hg2, hcur, hnb⟩ := legalStep_side_right g cur q hq hqs
    obtain ⟨hqr, hqc, _⟩ := hq
    push_neg at h1
    obtain ⟨hb1, hb2, hb3, hb4, hb5⟩ := h1
    have hqe : (⟨((cur.row : Int)).toNat, ((cur.col : Int) + 1).toNat⟩ : Coord) = q :=
      coord_ext _ _ (show (((cur.row : Int))).toNat = q.row by omega)
        (show (((cur.col : Int) + 1)).toNat = q.col by omega)
    rw [hqe] at h3
    exact absurd hnb h3

theorem dequeue_spec (g : GridConfig) (v : List (List Bool)) (cur : PathEntry)
    (rest : List PathEntry) (hinv : BfsInv g v (cur :: rest)) (hne : cur.pos ≠ g.endPosition) :
    BfsInv g
      ((candidatesOf cur.pos).foldl (stepNeighbor g (tileConn g cur.pos) cur.path) (v, rest)).1
      ((candidatesOf cur.pos).foldl (stepNeighbor g (tileConn g cur.pos) cur.path) (v, rest)).2 ∧
    countFalse g.gridSize
        ((candidatesOf cur.pos).foldl (stepNeighbor g (tileConn g cur.pos) cur.path) (v, rest)).1 +
      ((candidatesOf cur.pos).foldl (stepNeighbor g (tileConn g cur.pos) cur.path) (v, rest)).2.length =
      countFalse g.gridSize v + rest.length := by
  obtain ⟨hshape, hstart, hentries, hfrontier, hpend⟩ := hinv
  obtain ⟨hchain0, hnodup0, hpvis0⟩ := hentries cur (List.mem_cons_self _ _)
  have hrest : ∀ e ∈ rest, EntryOk g v e := fun e he => hentries e (List.mem_cons_of_mem _ he)
  have S1 := stepNeighbor_spec_top g cur.pos cur.path (v, rest) hshape hchain0 hnodup0
    hpvis0 hrest
  obtain ⟨sh1, mono1, cnt1, sub1, ent1, newq1, newv1, cov1⟩ := S1
  have S2 := stepNeighbor_spec_bottom g cur.pos cur.path _ sh1 hchain0 hnodup0
    (fun p hp => mono1 p (hpvis0 p hp)) ent1
  obtain ⟨sh2, mono2, cnt2, sub2, ent2, newq2, newv2, cov2⟩ := S2
  have S3 := stepNeighbor_spec_left g cur.pos cur.path _ sh2 hchain0 hnodup0
    (fun p hp => mono2 p (mono1 p (hpvis0 p hp))) ent2
  obtain ⟨sh3, mono3, cnt3, sub3, ent3, newq3, newv3, cov3⟩ := S3
  have S4 := stepNeighbor_spec_right g cur.pos cur.path _ sh3 hchain0 hnodup0
    (fun p hp => mono3 p (mono2 p (mono1 p (hpvis0 p hp)))) ent3
  obtain ⟨sh4, mono4, cnt4, sub4, ent4, newq4, newv4, cov4⟩ := S4
  have hfold : (candidatesOf cur.pos).foldl (stepNeighbor g (tileConn g cur.pos) cur.path)
      (v, rest) =
      stepNeighbor g (tileConn g cur.pos) cur.path
        (stepNeighbor g (tileConn g cur.pos) cur.path
          (stepNeighbor g (tileConn g cur.pos) cur.path
            (stepNeighbor g (tileConn g cur.pos) cur.path (v, rest) (candFor cur.pos Side.top))
            (candFor cur.pos Side.bottom))
          (candFor cur.pos Side.left))
        (candFor cur.pos Side.right) := rfl
  rw [hfold]
  have monoAll := fun p (hp : visGet v p = true) => mono4 p (mono3 p (mono2 p (mono1 p hp)))
  have subAll := fun e (he : e ∈ rest) => sub4 _ (sub3 _ (sub2 _ (sub1 _ he)))
  have covAll := fun m (hm : LegalStep g cur.pos m) =>
    (stepSide_mem cur.pos m).elim (fun hs => mono4 _ (mono3 _ (mono2 _ (cov1 m hm hs))))
      (fun hr => hr.elim (fun hs => mono4 _ (mono3 _ (cov2 m hm hs)))
        (fun hr2 => hr2.elim (fun hs => mono4 _ (cov3 m hm hs)) (fun hs => cov4 m hm hs)))
  have newAll : ∀ p, visGet (stepNeighbor g (tileConn g cur.pos) cur.path
      (stepNeighbor g (tileConn g cur.pos) cur.path
        (stepNeighbor g (tileConn g cur.pos) cur.path
          (stepNeighbor g (tileConn g cur.pos) cur.path (v, rest) (candFor cur.pos Side.top))
          (candFor cur.pos Side.bottom))
        (candFor cur.pos Side.left))
      (candFor cur.pos Side.right)).1 p = true →
      visGet v p = true ∨ ∃ e ∈ (stepNeighbor g (tileConn g cur.pos) cur.path
        (stepNeighbor g (tileConn g cur.pos) cur.path
          (stepNeighbor g (tileConn g cur.pos) cur.path
            (stepNeighbor g (tileConn g cur.pos) cur.path (v, rest) (candFor cur.pos Side.top))
            (candFor cur.pos Side.bottom))
          (candFor cur.pos Side.left))
        (candFor cur.pos Side.right)).2, e.pos = p := by
    intro p hp
    rcases newv4 p hp with hp3 | hnew
    · rcases newv3 p hp3 with hp2 | hnew
      · rcases newv2 p hp2 with hp1 | hnew
        · rcases newv1 p hp1 with hp0 | hnew
          · exact Or.inl hp0
          · obtain ⟨e, he, hep⟩ := hnew
            exact Or.inr ⟨e, sub4 _ (sub3 _ (sub2 _ he)), hep⟩
        · obtain ⟨e, he, hep⟩ := hnew
          exact Or.inr ⟨e, sub4 _ (sub3 _ he), hep⟩
      · obtain ⟨e, he, hep⟩ := hnew
        exact Or.inr ⟨e, sub4 _ he, hep⟩
    · exact Or.inr hnew
  refine ⟨⟨sh4, monoAll _ hstart, ent4, ?_, ?_⟩, ?_⟩
  · -- frontier
    intro p hp
    rcases newAll p hp with hold | hnew
    · rcases hfrontier p hold with ⟨e, he, hpos⟩ | hclosed
      · rcases List.mem_cons.mp he with heq | herest
        · subst heq
          refine Or.inr ?_
          intro m hm
          rw [← hpos] at hm
          exact covAll m hm
        · exact Or.inl ⟨e, subAll e herest, hpos⟩
      · exact Or.inr fun m hm => monoAll _ (hclosed m hm)
    · exact Or.inl hnew
  · -- endPending
    intro hp
    rcases newAll _ hp with hold | hnew
    · obtain ⟨e, he, hpos⟩ := hpend hold
      rcases List.mem_cons.mp he with heq | herest
      · subst heq
        exact absurd hpos hne
      · exact ⟨e, subAll e herest, hpos⟩
    · exact hnew
  · -- counting
    exact cnt4.trans (cnt3.trans (cnt2.trans cnt1))

theorem bfsInv_empty_not_reach (g : GridConfig) (v : List (List Bool))
    (hinv : BfsInv g v []) : ¬ Reach g g.endPosition := by
  obtain ⟨hshape, hstart, _, hfrontier, hpend⟩ := hinv
  intro hreach
  have hclosed : ∀ p, visGet v p = true → ∀ m, LegalStep g p m → visGet v m = true := by
    intro p hp m hm
    rcases hfrontier p hp with ⟨e, he, _⟩ | hc
    · exact absurd he (List.not_mem_nil e)
    · exact hc m hm
  obtain ⟨e, he, _⟩ := hpend (reach_visited g v hstart hclosed _ hreach)
  exact absurd he (List.not_mem_nil e)

theorem bfsLoop_spec (g : GridConfig) :
    ∀ fuel (v : List (List Bool)) (q : List PathEntry), BfsInv g v q →
      countFalse g.gridSize v + q.length ≤ fuel →
      ((bfsLoop g fuel v q).isValid = true →
        SpecChainTo g (bfsLoop g fuel v q).pathTiles g.endPosition ∧
          (bfsLoop g fuel v q).pathTiles.Nodup) ∧
      ((bfsLoop g fuel v q).isValid = false →
        (bfsLoop g fuel v q).pathTiles = [] ∧ ¬ Reach g g.endPosition) := by
  intro fuel
  induction fuel with
  | zero =>
    intro v q hinv hm
    rcases q with _ | ⟨cur, rest⟩
    · refine ⟨fun ht => absurd ht (by simp [bfsLoop]), fun _ => ?_⟩
      exact ⟨by simp [bfsLoop], bfsInv_empty_not_reach g v hinv⟩
    · simp only [List.length_cons] at hm
      omega
  | succ f ih =>
    intro v q hinv hm
    rcases q with _ | ⟨cur, rest⟩
    · refine ⟨fun ht => absurd ht (by simp [bfsLoop]), fun _ => ?_⟩
      exact ⟨by simp [bfsLoop], bfsInv_empty_not_reach g v hinv⟩
    · by_cases hend : cur.pos = g.endPosition
      · have hres : bfsLoop g (f + 1) v (cur :: rest) =
            { isValid := true, pathTiles := cur.path, message := "Valid path found!" } := by
          simp only [bfsLoop, if_pos hend]
        rw [hres]
        refine ⟨fun _ => ?_, fun hfalse => absurd hfalse (by simp)⟩
        obtain ⟨hch, hnd, _⟩ := hinv.2.2.1 cur (List.mem_cons_self _ _)
        exact ⟨hend ▸ hch, hnd⟩
      · have hres : bfsLoop g (f + 1) v (cur :: rest) =
            bfsLoop g f
              ((candidatesOf cur.pos).foldl (stepNeighbor g (tileConn g cur.pos) cur.path)
                (v, rest)).1
              ((candidatesOf cur.pos).foldl (stepNeighbor g (tileConn g cur.pos) cur.path)
                (v, rest)).2 := by
          simp only [bfsLoop, if_neg hend]
        obtain ⟨hinv2, hcnt⟩ := dequeue_spec g v cur rest hinv hend
        rw [hres]
        apply ih _ _ hinv2
        simp only [List.length_cons] at hm
        omega

theorem visGet_init_eq_start (g : GridConfig) (hs : inGrid g g.startPosition) (p : Coord)
    (hp : visGet (visSet (mkFalseGrid g.gridSize) g.startPosition) p = true) :
    p = g.startPosition := by
  by_cases he : p = g.startPosition
  · exact he
  · rw [visGet_set_ne _ _ _ he, visGet_mkFalseGrid] at hp
    exact absurd hp (by simp)

theorem validatePath_spec (g : GridConfig) (hs : inGrid g g.startPosition) :
    ((validatePath g).isValid = true →
      SpecChainTo g (validatePath g).pathTiles g.endPosition ∧
        (validatePath g).pathTiles.Nodup) ∧
    ((validatePath g).isValid = false →
      (validatePath g).pathTiles = [] ∧ ¬ Reach g g.endPosition) := by
  have hshape0 := visShape_mkFalseGrid g.gridSize
  have hinv0 : BfsInv g (visSet (mkFalseGrid g.gridSize) g.startPosition)
      [⟨g.startPosition, [g.startPosition]⟩] := by
    refine ⟨visShape_set _ _ _ hshape0,
      visGet_set_self _ _ _ hshape0 hs.1 hs.2, ?_, ?_, ?_⟩
    · intro e he
      rw [List.mem_singleton] at he
      subst he
      refine ⟨specChainTo_single g hs, List.nodup_singleton _, ?_⟩
      intro p hp
      rw [List.mem_singleton] at hp
      subst hp
      exact visGet_set_self _ _ _ hshape0 hs.1 hs.2
    · intro p hp
      exact Or.inl ⟨⟨g.startPosition, [g.startPosition]⟩, List.mem_singleton_self _,
        (visGet_init_eq_start g hs p hp).symm⟩
    · intro hp
      exact ⟨⟨g.startPosition, [g.startPosition]⟩, List.mem_singleton_self _,
        (visGet_init_eq_start g hs _ hp).symm⟩
  have hm0 : countFalse g.gridSize (visSet (mkFalseGrid g.gridSize) g.startPosition) +
      [(⟨g.startPosition, [g.startPosition]⟩ : PathEntry)].length ≤ g.gridSize * g.gridSize := by
    have := countFalse_set g.gridSize (mkFalseGrid g.gridSize) g.startPosition hshape0
      hs.1 hs.2 (visGet_mkFalseGrid _ _)
    rw [countFalse_mkFalseGrid] at this
    simp only [List.length_singleton]
    omega
  exact bfsLoop_spec g (g.gridSize * g.gridSize) _ _ hinv0 hm0

theorem legalStep_unitStep (g : GridConfig) (p q : Coord) (h : LegalStep g p q) :
    UnitStep p q := by
  obtain ⟨_, _, hd⟩ := h
  unfold UnitStep
  rcases hd with ⟨h1, h2, _, _⟩ | ⟨h1, h2, _, _⟩ | ⟨h1, h2, _, _⟩ | ⟨h1, h2, _, _⟩ <;> tauto

/-- C2: for every grid whose start position is on the board,
`validatePath` returns `isValid = true` with a non-empty `pathTiles` exactly
when a chain of grid cells runs from the start position to the end position
with mutually-facing rotated exits at every link; otherwise it returns
`isValid = false` with empty `pathTiles`. -/
theorem C2_validatePath_iff_chain (g : GridConfig) (hs : inGrid g g.startPosition) :
    ((validatePath g).isValid = true ↔ ∃ l, SpecChain g l) ∧
    ((validatePath g).isValid = true → (validatePath g).pathTiles ≠ []) ∧
    ((validatePath g).isValid = false → (validatePath g).pathTiles = []) := by
  obtain ⟨htrue, hfalse⟩ := validatePath_spec g hs
  refine ⟨⟨fun h => ⟨_, (htrue h).1⟩, fun hex => ?_⟩,
    fun h => (htrue h).1.1, fun h => (hfalse h).1⟩
  obtain ⟨l, hl⟩ := hex
  by_cases hb : (validatePath g).isValid = true
  · exact hb
  · have hb2 : (validatePath g).isValid = false := Bool.eq_false_iff.mpr hb
    exact absurd (reach_of_specChainTo g l g.endPosition hl) (hfalse hb2).2

theorem C2_witness :
    ((validatePath exGrid1).isValid = true ↔ ∃ l, SpecChain exGrid1 l) ∧
    ((validatePath exGrid1).isValid = true → (validatePath exGrid1).pathTiles ≠ []) ∧
    ((validatePath exGrid1).isValid = false → (validatePath exGrid1).pathTiles = []) :=
  C2_validatePath_iff_chain exGrid1 (by decide)

/-- C10: whenever `validatePath` reports `isValid = true`, the returned
`pathTiles` is non-empty, begins at the start position, ends at the end
position, stays within the grid bounds, repeats no cell, and each
consecutive pair differs by exactly one unit step along one axis. -/
theorem C10_valid_path_wellformed (g : GridConfig) (hs : inGrid g g.startPosition)
    (hok : (validatePath g).isValid = true) :
    (validatePath g).pathTiles ≠ [] ∧
    (validatePath g).pathTiles.head? = some g.startPosition ∧
    (validatePath g).pathTiles.getLast? = some g.endPosition ∧
    (∀ p ∈ (validatePath g).pathTiles, inGrid g p) ∧
    (validatePath g).pathTiles.Nodup ∧
    List.Chain' UnitStep (validatePath g).pathTiles := by
  obtain ⟨⟨hne, hhead, hlast, hin, hchain⟩, hnd⟩ := (validatePath_spec g hs).1 hok
  exact ⟨hne, hhead, hlast, hin, hnd, hchain.imp (legalStep_unitStep g)⟩

theorem C10_witness :
    (validatePath exGrid2).pathTiles ≠ [] ∧
    (validatePath exGrid2).pathTiles.head? = some exGrid2.startPosition ∧
    (validatePath exGrid2).pathTiles.getLast? = some exGrid2.endPosition ∧
    (∀ p ∈ (validatePath exGrid2).pathTiles, inGrid exGrid2 p) ∧
    (validatePath exGrid2).pathTiles.Nodup ∧
    List.Chain' UnitStep (validatePath exGrid2).pathTiles :=
  C10_valid_path_wellformed exGrid2 (by decide) (by decide)
